import Mathlib

/-!
# Verification of the nanoclaw-bastille host orchestration core

Shallow embedding of the host-side orchestration core of the repository:
the per-channel `GroupQueue` (group-queue source file), the per-channel
message processor, IPC watcher and `splitMessage` (`src/index.ts`), and the
sandboxed agent runner loop (agent-runner source file).  Effectful calls
(database reads, the container launch, the LLM API) become explicit
parameters of the embedded functions; machine state becomes explicit state
records; the JS event loop becomes a small-step transition relation whose
atomic steps are the synchronous segments of the async functions.
-/

namespace Nanoclaw

/-! ## GroupQueue (group-queue source file)

Per-channel state mirrors the `GroupState` interface; pending tasks are
kept as their `taskId` strings (the attached closures are irrelevant to the
queue's bookkeeping).  `groups` is a total function with the default entry
that `getGroup` materializes on first touch.  The global concurrency cap
`MAX_CONCURRENT_CONTAINERS` comes from config and is a parameter `N`
throughout. -/

/-- `MAX_RETRIES` constant from the group-queue source file. -/
def MAX_RETRIES : Nat := 5

/-- `BASE_RETRY_MS` constant from the group-queue source file. -/
def BASE_RETRY_MS : Nat := 5000

/-- Per-channel queue state (`GroupState` interface); the `process` and
`containerName` handles are not modelled. -/
structure GroupState where
  active : Bool
  pendingMessages : Bool
  pendingTasks : List String
  retryCount : Nat
deriving Repr, DecidableEq

/-- The state `getGroup` materializes for an unknown channel. -/
def GroupState.initial : GroupState :=
  { active := false, pendingMessages := false, pendingTasks := [], retryCount := 0 }

/-- Whole-queue state: per-channel map plus the `GroupQueue` fields. -/
structure QueueState where
  groups : String → GroupState
  activeCount : Nat
  waitingGroups : List String
  shuttingDown : Bool

/-- The freshly constructed `GroupQueue`. -/
def QueueState.initial : QueueState :=
  { groups := fun _ => GroupState.initial
    activeCount := 0
    waitingGroups := []
    shuttingDown := false }

/-- Synchronous prefix of `runForGroup`: set `active`, clear
`pendingMessages`, increment `activeCount`.  The awaited processor call and
the `finally` block happen later (see `finishMessages`). -/
def startMessages (s : QueueState) (c : String) : QueueState :=
  let g := s.groups c
  { s with
    groups := Function.update s.groups c
      ({ g with active := true, pendingMessages := false })
    activeCount := s.activeCount + 1 }

/-- Synchronous prefix of `runTask`: set `active`, increment `activeCount`
(the task to run is carried by the caller, not read from queue state). -/
def startTask (s : QueueState) (c : String) : QueueState :=
  let g := s.groups c
  { s with
    groups := Function.update s.groups c ({ g with active := true })
    activeCount := s.activeCount + 1 }

/-- `GroupQueue.enqueueMessageCheck`. -/
def enqueueMessageCheck (N : Nat) (s : QueueState) (c : String) : QueueState :=
  if s.shuttingDown then s
  else
    let g := s.groups c
    if g.active then
      { s with groups := Function.update s.groups c ({ g with pendingMessages := true }) }
    else if N ≤ s.activeCount then
      { s with
        groups := Function.update s.groups c ({ g with pendingMessages := true })
        waitingGroups :=
          if c ∈ s.waitingGroups then s.waitingGroups else s.waitingGroups ++ [c] }
    else
      startMessages s c

/-- `GroupQueue.enqueueTask` (the queued closure is dropped; only the
`taskId` matters for dedup and bookkeeping). -/
def enqueueTask (N : Nat) (s : QueueState) (c : String) (taskId : String) : QueueState :=
  if s.shuttingDown then s
  else
    let g := s.groups c
    if taskId ∈ g.pendingTasks then s
    else if g.active then
      { s with groups :=
          (Function.update s.groups c ({ g with pendingTasks := g.pendingTasks ++ [taskId] })) }
    else if N ≤ s.activeCount then
      { s with
        groups :=
          (Function.update s.groups c ({ g with pendingTasks := g.pendingTasks ++ [taskId] }))
        waitingGroups :=
          if c ∈ s.waitingGroups then s.waitingGroups else s.waitingGroups ++ [c] }
    else
      startTask s c

/-- The `while` loop of `GroupQueue.drainWaiting`, recursing on the
remaining `waitingGroups` list (each iteration shifts one element). -/
def drainWaitingAux (N : Nat) : List String → QueueState → QueueState
  | [], s => { s with waitingGroups := [] }
  | c :: rest, s =>
    if s.activeCount < N then
      let g := s.groups c
      match g.pendingTasks with
      | _ :: ts =>
        drainWaitingAux N rest
          (startTask
            { s with groups := Function.update s.groups c ({ g with pendingTasks := ts }) } c)
      | [] =>
        if g.pendingMessages then drainWaitingAux N rest (startMessages s c)
        else drainWaitingAux N rest s
    else
      { s with waitingGroups := c :: rest }

/-- `GroupQueue.drainWaiting`. -/
def drainWaiting (N : Nat) (s : QueueState) : QueueState :=
  drainWaitingAux N s.waitingGroups s

/-- `GroupQueue.drainGroup`. -/
def drainGroup (N : Nat) (s : QueueState) (c : String) : QueueState :=
  if s.shuttingDown then s
  else
    let g := s.groups c
    match g.pendingTasks with
    | _ :: ts =>
      startTask
        { s with groups := Function.update s.groups c ({ g with pendingTasks := ts }) } c
    | [] =>
      if g.pendingMessages then startMessages s c
      else drainWaiting N s

/-- `GroupQueue.scheduleRetry` on the retry counter alone: returns the new
`retryCount` and `some delayMs` when a retry timer is armed, `none` when
the budget is exhausted and the counter is reset. -/
def scheduleRetry (retryCount : Nat) : Nat × Option Nat :=
  let rc := retryCount + 1
  if MAX_RETRIES < rc then (0, none)
  else (rc, some (BASE_RETRY_MS * 2 ^ (rc - 1)))

/-- First half of the `finally` block shared by `runForGroup` and
`runTask`: clear `active` and decrement `activeCount`. -/
def deactivate (s : QueueState) (c : String) : QueueState :=
  let g := s.groups c
  { s with
    groups := Function.update s.groups c ({ g with active := false })
    activeCount := s.activeCount - 1 }

/-- The `finally` block shared by `runForGroup` and `runTask`: clear
`active`, decrement `activeCount`, then `drainGroup`. -/
def finishCommon (N : Nat) (s : QueueState) (c : String) : QueueState :=
  drainGroup N (deactivate s c) c

/-- Completion of an in-flight `runForGroup` call: the success/failure
branch (reset `retryCount` or `scheduleRetry`) followed by the `finally`
block.  The retry timer's later `enqueueMessageCheck` is a separate trace
event. -/
def finishMessages (N : Nat) (s : QueueState) (c : String) (success : Bool) : QueueState :=
  let g := s.groups c
  let g' :=
    if success then { g with retryCount := 0 }
    else { g with retryCount := (scheduleRetry g.retryCount).1 }
  finishCommon N { s with groups := Function.update s.groups c g' } c

/-- Completion of an in-flight `runTask` call (no retry bookkeeping). -/
def finishTask (N : Nat) (s : QueueState) (c : String) : QueueState :=
  finishCommon N s c

/-- `GroupQueue.shutdown`'s synchronous effect on queue state. -/
def shutdownQueue (s : QueueState) : QueueState :=
  { s with shuttingDown := true }

/-- One atomic event of the queue: a public enqueue, the completion of an
in-flight job (only possible for a channel that is running one), or the
shutdown flag being raised. -/
inductive QStep (N : Nat) : QueueState → QueueState → Prop
  | enqueueMsg (s : QueueState) (c : String) : QStep N s (enqueueMessageCheck N s c)
  | enqueueTsk (s : QueueState) (c taskId : String) : QStep N s (enqueueTask N s c taskId)
  | finishMsg (s : QueueState) (c : String) (success : Bool)
      (h : (s.groups c).active = true) : QStep N s (finishMessages N s c success)
  | finishTsk (s : QueueState) (c : String)
      (h : (s.groups c).active = true) : QStep N s (finishTask N s c)
  | shut (s : QueueState) : QStep N s (shutdownQueue s)

/-- Queue states reachable from the freshly constructed queue. -/
inductive QReachable (N : Nat) : QueueState → Prop
  | init : QReachable N QueueState.initial
  | step {s s' : QueueState} : QReachable N s → QStep N s s' → QReachable N s'

/-- The queue invariant of the claim: `activeCount` counts exactly the
channels with an active job (so each active channel accounts for exactly
one slot and no channel ever has two), the count respects the global cap,
a channel waits at most once, waiting channels are inactive, and outside
shutdown a free slot means nobody is left waiting. -/
structure QueueInv (N : Nat) (s : QueueState) : Prop where
  count_eq : ∃ A : Finset String,
    (∀ c, (s.groups c).active = true ↔ c ∈ A) ∧ s.activeCount = A.card
  count_le : s.activeCount ≤ N
  wait_nodup : s.waitingGroups.Nodup
  wait_inactive : ∀ c ∈ s.waitingGroups, (s.groups c).active = false
  wait_empty : s.shuttingDown = false → s.activeCount < N → s.waitingGroups = []

/-! ### Projection lemmas for the queue operations -/

@[simp] lemma startMessages_activeCount (s : QueueState) (c : String) :
    (startMessages s c).activeCount = s.activeCount + 1 := rfl

@[simp] lemma startMessages_waitingGroups (s : QueueState) (c : String) :
    (startMessages s c).waitingGroups = s.waitingGroups := rfl

@[simp] lemma startMessages_shuttingDown (s : QueueState) (c : String) :
    (startMessages s c).shuttingDown = s.shuttingDown := rfl

lemma startMessages_groups_active (s : QueueState) (c x : String) :
    ((startMessages s c).groups x).active = if x = c then true else (s.groups x).active := by
  by_cases hx : x = c
  · subst hx; simp [startMessages]
  · simp [startMessages, Function.update_noteq hx, hx]

@[simp] lemma startTask_activeCount (s : QueueState) (c : String) :
    (startTask s c).activeCount = s.activeCount + 1 := rfl

@[simp] lemma startTask_waitingGroups (s : QueueState) (c : String) :
    (startTask s c).waitingGroups = s.waitingGroups := rfl

@[simp] lemma startTask_shuttingDown (s : QueueState) (c : String) :
    (startTask s c).shuttingDown = s.shuttingDown := rfl

lemma startTask_groups_active (s : QueueState) (c x : String) :
    ((startTask s c).groups x).active = if x = c then true else (s.groups x).active := by
  by_cases hx : x = c
  · subst hx; simp [startTask]
  · simp [startTask, Function.update_noteq hx, hx]

@[simp] lemma deactivate_activeCount (s : QueueState) (c : String) :
    (deactivate s c).activeCount = s.activeCount - 1 := rfl

@[simp] lemma deactivate_waitingGroups (s : QueueState) (c : String) :
    (deactivate s c).waitingGroups = s.waitingGroups := rfl

@[simp] lemma deactivate_shuttingDown (s : QueueState) (c : String) :
    (deactivate s c).shuttingDown = s.shuttingDown := rfl

lemma deactivate_groups_active (s : QueueState) (c x : String) :
    ((deactivate s c).groups x).active = if x = c then false else (s.groups x).active := by
  by_cases hx : x = c
  · subst hx; simp [deactivate]
  · simp [deactivate, Function.update_noteq hx, hx]

/-! ### The accounting part of the invariant -/

/-- `A` is exactly the set of channels with an active job and `activeCount`
counts it. -/
def ActiveChar (s : QueueState) (A : Finset String) : Prop :=
  (∀ c, (s.groups c).active = true ↔ c ∈ A) ∧ s.activeCount = A.card

lemma activeChar_not_mem {s : QueueState} {A : Finset String} (h : ActiveChar s A)
    {c : String} (hc : (s.groups c).active = false) : c ∉ A := by
  intro hm
  have := (h.1 c).mpr hm
  rw [this] at hc
  exact Bool.true_eq_false.mp hc

lemma activeChar_startMessages {s : QueueState} {A : Finset String} {c : String}
    (h : ActiveChar s A) (hc : (s.groups c).active = false) :
    ActiveChar (startMessages s c) (insert c A) := by
  obtain ⟨hiff, hcard⟩ := h
  refine ⟨fun x => ?_, ?_⟩
  · rw [startMessages_groups_active]
    by_cases hx : x = c
    · subst hx; simp
    · simp [hx, hiff x]
  · simp [hcard, Finset.card_insert_of_not_mem (activeChar_not_mem ⟨hiff, hcard⟩ hc)]

lemma activeChar_startTask {s : QueueState} {A : Finset String} {c : String}
    (h : ActiveChar s A) (hc : (s.groups c).active = false) :
    ActiveChar (startTask s c) (insert c A) := by
  obtain ⟨hiff, hcard⟩ := h
  refine ⟨fun x => ?_, ?_⟩
  · rw [startTask_groups_active]
    by_cases hx : x = c
    · subst hx; simp
    · simp [hx, hiff x]
  · simp [hcard, Finset.card_insert_of_not_mem (activeChar_not_mem ⟨hiff, hcard⟩ hc)]

lemma activeChar_deactivate {s : QueueState} {A : Finset String} {c : String}
    (h : ActiveChar s A) (hc : (s.groups c).active = true) :
    ActiveChar (deactivate s c) (A.erase c) := by
  obtain ⟨hiff, hcard⟩ := h
  have hcA : c ∈ A := (hiff c).mp hc
  refine ⟨fun x => ?_, ?_⟩
  · rw [deactivate_groups_active]
    by_cases hx : x = c
    · subst hx; simp
    · simp [hx, hiff x, Finset.mem_erase]
  · simp [hcard, Finset.card_erase_of_mem hcA]

/-- Any update that leaves the `active` flags untouched preserves
`ActiveChar`. -/
lemma activeChar_congr {s s' : QueueState} {A : Finset String} (h : ActiveChar s A)
    (hact : ∀ x, (s'.groups x).active = (s.groups x).active)
    (hcnt : s'.activeCount = s.activeCount) : ActiveChar s' A :=
  ⟨fun x => by rw [hact x]; exact h.1 x, by rw [hcnt]; exact h.2⟩

/-- Updating one channel's entry with a record that keeps its `active`
flag leaves every channel's `active` flag unchanged. -/
lemma update_active_eq {f : String → GroupState} {c : String} {g : GroupState}
    (hg : g.active = (f c).active) (x : String) :
    ((Function.update f c g) x).active = (f x).active := by
  by_cases hx : x = c
  · subst hx; simp [hg]
  · simp [Function.update_noteq hx]

/-- The invariant only looks at the `active` flags, the count, the waiting
list and the shutdown flag. -/
lemma queueInv_congr {N : Nat} {s s' : QueueState} (h : QueueInv N s)
    (hact : ∀ x, (s'.groups x).active = (s.groups x).active)
    (hcnt : s'.activeCount = s.activeCount)
    (hwait : s'.waitingGroups = s.waitingGroups)
    (hshut : s'.shuttingDown = s.shuttingDown) : QueueInv N s' := by
  obtain ⟨A, hA1, hA2⟩ := h.count_eq
  refine ⟨⟨A, fun x => by rw [hact x]; exact hA1 x, by rw [hcnt]; exact hA2⟩,
    by rw [hcnt]; exact h.count_le, by rw [hwait]; exact h.wait_nodup,
    ?_, ?_⟩
  · intro x hx
    rw [hact x]
    exact h.wait_inactive x (hwait ▸ hx)
  · intro h1 h2
    rw [hwait]
    exact h.wait_empty (hshut ▸ h1) (hcnt ▸ h2)

/-- Invariant of the `drainWaiting` while-loop: assuming exact accounting,
a respected cap, and that every still-waiting channel is inactive, the loop
reestablishes the full queue invariant. -/
lemma drainWaitingAux_inv (N : Nat) (l : List String) :
    ∀ s : QueueState, s.shuttingDown = false → (∃ A, ActiveChar s A) →
    s.activeCount ≤ N → (∀ c ∈ l, (s.groups c).active = false) → l.Nodup →
    QueueInv N (drainWaitingAux N l s) := by
  induction l with
  | nil =>
    intro s hshut hA hle _ _
    obtain ⟨A, hA⟩ := hA
    rw [show drainWaitingAux N [] s = { s with waitingGroups := [] } from rfl]
    exact ⟨⟨A, hA.1, hA.2⟩, hle, List.nodup_nil, fun c hc => absurd hc (List.not_mem_nil c),
      fun _ _ => rfl⟩
  | cons c rest ih =>
    intro s hshut hA hle hin hnd
    obtain ⟨A, hA⟩ := hA
    have hcrest : c ∉ rest := (List.nodup_cons.mp hnd).1
    have hndrest : rest.Nodup := (List.nodup_cons.mp hnd).2
    have hcinact : (s.groups c).active = false := hin c (List.mem_cons_self c rest)
    rw [drainWaitingAux]
    by_cases hcnt : s.activeCount < N
    · rw [if_pos hcnt]
      rcases htasks : (s.groups c).pendingTasks with _ | ⟨t, ts⟩
      · simp only [htasks]
        by_cases hpm : (s.groups c).pendingMessages = true
        · rw [if_pos hpm]
          apply ih
          · simpa using hshut
          · exact ⟨insert c A, activeChar_startMessages hA hcinact⟩
          · simpa using hcnt
          · intro x hx
            rw [startMessages_groups_active]
            have hxc : x ≠ c := fun he => hcrest (he ▸ hx)
            rw [if_neg hxc]
            exact hin x (List.mem_cons_of_mem c hx)
          · exact hndrest
        · rw [if_neg hpm]
          apply ih s hshut ⟨A, hA⟩ (Nat.le_of_lt hcnt)
            (fun x hx => hin x (List.mem_cons_of_mem c hx)) hndrest
      · simp only [htasks]
        set s0 : QueueState :=
          { s with groups := Function.update s.groups c ({ s.groups c with pendingTasks := ts }) }
          with hs0
        have hact0 : ∀ x, (s0.groups x).active = (s.groups x).active :=
          update_active_eq rfl
        apply ih
        · simpa using hshut
        · exact ⟨insert c A,
            activeChar_startTask (activeChar_congr hA hact0 rfl) ((hact0 c).trans hcinact ▸ rfl)⟩
        · simpa using hcnt
        · intro x hx
          rw [startTask_groups_active]
          have hxc : x ≠ c := fun he => hcrest (he ▸ hx)
          rw [if_neg hxc, hact0 x]
          exact hin x (List.mem_cons_of_mem c hx)
        · exact hndrest
    · rw [if_neg hcnt]
      refine ⟨⟨A, hA.1, hA.2⟩, hle, hnd, hin, ?_⟩
      intro _ h2
      exact absurd h2 hcnt

/-! ### Preservation of the invariant by each queue operation -/

lemma queueInv_enqueueMessageCheck {N : Nat} {s : QueueState} (h : QueueInv N s)
    (c : String) : QueueInv N (enqueueMessageCheck N s c) := by
  rw [enqueueMessageCheck]
  by_cases hshut : s.shuttingDown = true
  · rw [if_pos hshut]; exact h
  · rw [if_neg hshut]
    simp only
    by_cases hact : (s.groups c).active = true
    · rw [if_pos hact]
      exact queueInv_congr h (update_active_eq rfl) rfl rfl rfl
    · rw [if_neg hact]
      have hinact : (s.groups c).active = false := by
        simpa using hact
      by_cases hcap : N ≤ s.activeCount
      · rw [if_pos hcap]
        obtain ⟨A, hA1, hA2⟩ := h.count_eq
        have hactive' := update_active_eq
          (f := s.groups) (c := c) (g := { s.groups c with pendingMessages := true }) rfl
        refine ⟨⟨A, fun x => by rw [hactive' x]; exact hA1 x, hA2⟩, h.count_le, ?_, ?_, ?_⟩
        · by_cases hmem : c ∈ s.waitingGroups
          · rw [if_pos hmem]; exact h.wait_nodup
          · rw [if_neg hmem]
            rw [List.nodup_append]
            exact ⟨h.wait_nodup, List.nodup_singleton c,
              fun x hx hx' => hmem ((List.mem_singleton.mp hx') ▸ hx)⟩
        · intro x hx
          rw [hactive' x]
          by_cases hmem : c ∈ s.waitingGroups
          · rw [if_pos hmem] at hx
            exact h.wait_inactive x hx
          · rw [if_neg hmem] at hx
            rcases List.mem_append.mp hx with hx | hx
            · exact h.wait_inactive x hx
            · rw [List.mem_singleton.mp hx]; exact hinact
        · intro _ h2
          exact absurd h2 (Nat.not_lt.mpr hcap)
      · rw [if_neg hcap]
        have hcnt : s.activeCount < N := Nat.lt_of_not_le hcap
        have hwait : s.waitingGroups = [] := h.wait_empty (by simpa using hshut) hcnt
        obtain ⟨A, hA1, hA2⟩ := h.count_eq
        refine ⟨⟨insert c A, (activeChar_startMessages ⟨hA1, hA2⟩ hinact).1,
          (activeChar_startMessages ⟨hA1, hA2⟩ hinact).2⟩, by simpa using hcnt, ?_, ?_, ?_⟩
        · rw [startMessages_waitingGroups, hwait]; exact List.nodup_nil
        · intro x hx
          rw [startMessages_waitingGroups, hwait] at hx
          exact absurd hx (List.not_mem_nil x)
        · intro _ _
          rw [startMessages_waitingGroups, hwait]

lemma queueInv_enqueueTask {N : Nat} {s : QueueState} (h : QueueInv N s)
    (c taskId : String) : QueueInv N (enqueueTask N s c taskId) := by
  rw [enqueueTask]
  by_cases hshut : s.shuttingDown = true
  · rw [if_pos hshut]; exact h
  · rw [if_neg hshut]
    simp only
    by_cases hdup : taskId ∈ (s.groups c).pendingTasks
    · rw [if_pos hdup]; exact h
    · rw [if_neg hdup]
      by_cases hact : (s.groups c).active = true
      · rw [if_pos hact]
        exact queueInv_congr h (update_active_eq rfl) rfl rfl rfl
      · rw [if_neg hact]
        have hinact : (s.groups c).active = false := by
          simpa using hact
        by_cases hcap : N ≤ s.activeCount
        · rw [if_pos hcap]
          obtain ⟨A, hA1, hA2⟩ := h.count_eq
          have hactive' := update_active_eq (f := s.groups) (c := c)
            (g := { s.groups c with pendingTasks := (s.groups c).pendingTasks ++ [taskId] }) rfl
          refine ⟨⟨A, fun x => by rw [hactive' x]; exact hA1 x, hA2⟩, h.count_le, ?_, ?_, ?_⟩
          · by_cases hmem : c ∈ s.waitingGroups
            · rw [if_pos hmem]; exact h.wait_nodup
            · rw [if_neg hmem]
              rw [List.nodup_append]
              exact ⟨h.wait_nodup, List.nodup_singleton c,
                fun x hx hx' => hmem ((List.mem_singleton.mp hx') ▸ hx)⟩
          · intro x hx
            rw [hactive' x]
            by_cases hmem : c ∈ s.waitingGroups
            · rw [if_pos hmem] at hx
              exact h.wait_inactive x hx
            · rw [if_neg hmem] at hx
              rcases List.mem_append.mp hx with hx | hx
              · exact h.wait_inactive x hx
              · rw [List.mem_singleton.mp hx]; exact hinact
          · intro _ h2
            exact absurd h2 (Nat.not_lt.mpr hcap)
        · rw [if_neg hcap]
          have hcnt : s.activeCount < N := Nat.lt_of_not_le hcap
          have hwait : s.waitingGroups = [] := h.wait_empty (by simpa using hshut) hcnt
          obtain ⟨A, hA1, hA2⟩ := h.count_eq
          refine ⟨⟨insert c A, (activeChar_startTask ⟨hA1, hA2⟩ hinact).1,
            (activeChar_startTask ⟨hA1, hA2⟩ hinact).2⟩, by simpa using hcnt, ?_, ?_, ?_⟩
          · rw [startTask_waitingGroups, hwait]; exact List.nodup_nil
          · intro x hx
            rw [startTask_waitingGroups, hwait] at hx
            exact absurd hx (List.not_mem_nil x)
          · intro _ _
            rw [startTask_waitingGroups, hwait]

lemma queueInv_finishCommon {N : Nat} {s : QueueState} (h : QueueInv N s)
    {c : String} (hc : (s.groups c).active = true) :
    QueueInv N (finishCommon N s c) := by
  rw [finishCommon, drainGroup]
  obtain ⟨A, hA1, hA2⟩ := h.count_eq
  have hA' : ActiveChar (deactivate s c) (A.erase c) :=
    activeChar_deactivate ⟨hA1, hA2⟩ hc
  have hcA : c ∈ A := (hA1 c).mp hc
  have hpos : 1 ≤ s.activeCount := by
    rw [hA2]; exact Finset.card_pos.mpr ⟨c, hcA⟩
  have hcwait : c ∉ s.waitingGroups := fun hm => by
    have := h.wait_inactive c hm
    rw [hc] at this
    exact Bool.true_eq_false.mp this
  have hwaitin : ∀ x ∈ s.waitingGroups, ((deactivate s c).groups x).active = false := by
    intro x hx
    rw [deactivate_groups_active]
    by_cases hxc : x = c
    · rw [if_pos hxc]
    · rw [if_neg hxc]; exact h.wait_inactive x hx
  by_cases hshut : s.shuttingDown = true
  · rw [if_pos (show (deactivate s c).shuttingDown = true from hshut)]
    refine ⟨⟨A.erase c, hA'.1, hA'.2⟩, ?_, h.wait_nodup, hwaitin, ?_⟩
    · exact Nat.le_trans (Nat.sub_le _ _) h.count_le
    · intro h1 _
      rw [deactivate_shuttingDown] at h1
      rw [h1] at hshut
      exact absurd hshut (by simp)
  · have hshutd : (deactivate s c).shuttingDown = false := by
      rw [deactivate_shuttingDown]; simpa using hshut
    rw [if_neg (by rw [hshutd]; simp)]
    simp only
    rcases htasks : ((deactivate s c).groups c).pendingTasks with _ | ⟨t, ts⟩
    · simp only [htasks]
      by_cases hpm : ((deactivate s c).groups c).pendingMessages = true
      · rw [if_pos hpm]
        have hcfalse : ((deactivate s c).groups c).active = false := by
          rw [deactivate_groups_active, if_pos rfl]
        refine ⟨⟨insert c (A.erase c),
          (activeChar_startMessages hA' hcfalse).1, (activeChar_startMessages hA' hcfalse).2⟩,
          ?_, ?_, ?_, ?_⟩
        · rw [startMessages_activeCount, deactivate_activeCount]
          rw [Nat.sub_add_cancel hpos]
          exact h.count_le
        · rw [startMessages_waitingGroups, deactivate_waitingGroups]
          exact h.wait_nodup
        · intro x hx
          rw [startMessages_waitingGroups, deactivate_waitingGroups] at hx
          rw [startMessages_groups_active]
          have hxc : x ≠ c := fun he => hcwait (he ▸ hx)
          rw [if_neg hxc]
          exact hwaitin x hx
        · intro _ h2
          rw [startMessages_activeCount, deactivate_activeCount,
            Nat.sub_add_cancel hpos] at h2
          rw [startMessages_waitingGroups, deactivate_waitingGroups]
          exact h.wait_empty (by simpa using hshut) h2
      · rw [if_neg hpm]
        rw [drainWaiting]
        apply drainWaitingAux_inv
        · exact hshutd
        · exact ⟨A.erase c, hA'⟩
        · exact Nat.le_trans (Nat.sub_le _ _) h.count_le
        · intro x hx
          rw [deactivate_waitingGroups] at hx
          exact hwaitin x hx
        · rw [deactivate_waitingGroups]
          exact h.wait_nodup
    · simp only [htasks]
      set s0 : QueueState :=
        { deactivate s c with
          groups := Function.update (deactivate s c).groups c
            ({ (deactivate s c).groups c with pendingTasks := ts }) }
        with hs0
      have hact0 : ∀ x, (s0.groups x).active = ((deactivate s c).groups x).active :=
        update_active_eq rfl
      have hc0 : (s0.groups c).active = false := by
        rw [hact0 c, deactivate_groups_active, if_pos rfl]
      have hA0 : ActiveChar s0 (A.erase c) := activeChar_congr hA' hact0 rfl
      refine ⟨⟨insert c (A.erase c),
        (activeChar_startTask hA0 hc0).1, (activeChar_startTask hA0 hc0).2⟩, ?_, ?_, ?_, ?_⟩
      · rw [startTask_activeCount]
        show (deactivate s c).activeCount + 1 ≤ N
        rw [deactivate_activeCount, Nat.sub_add_cancel hpos]
        exact h.count_le
      · rw [startTask_waitingGroups]
        show (deactivate s c).waitingGroups.Nodup
        rw [deactivate_waitingGroups]
        exact h.wait_nodup
      · intro x hx
        rw [startTask_waitingGroups] at hx
        replace hx : x ∈ s.waitingGroups := hx
        rw [startTask_groups_active]
        have hxc : x ≠ c := fun he => hcwait (he ▸ hx)
        rw [if_neg hxc, hact0 x]
        exact hwaitin x hx
      · intro _ h2
        rw [startTask_activeCount] at h2
        replace h2 : (deactivate s c).activeCount + 1 < N := h2
        rw [deactivate_activeCount, Nat.sub_add_cancel hpos] at h2
        rw [startTask_waitingGroups]
        show (deactivate s c).waitingGroups = []
        rw [deactivate_waitingGroups]
        exact h.wait_empty (by simpa using hshut) h2

lemma queueInv_finishMessages {N : Nat} {s : QueueState} (h : QueueInv N s)
    {c : String} (hc : (s.groups c).active = true) (success : Bool) :
    QueueInv N (finishMessages N s c success) := by
  have hg'act : (if success then { s.groups c with retryCount := 0 }
      else { s.groups c with
        retryCount := (scheduleRetry (s.groups c).retryCount).1 }).active
      = (s.groups c).active := by
    by_cases hs : success = true
    · rw [if_pos hs]
    · rw [if_neg hs]
  have h1 : QueueInv N { s with groups := (Function.update s.groups c
      (if success then { s.groups c with retryCount := 0 }
       else { s.groups c with
         retryCount := (scheduleRetry (s.groups c).retryCount).1 })) } :=
    queueInv_congr h (update_active_eq hg'act) rfl rfl rfl
  have hc1 : ((Function.update s.groups c
      (if success then { s.groups c with retryCount := 0 }
       else { s.groups c with
         retryCount := (scheduleRetry (s.groups c).retryCount).1 })) c).active = true := by
    rw [Function.update_same, hg'act]
    exact hc
  exact queueInv_finishCommon h1 hc1

lemma queueInv_finishTask {N : Nat} {s : QueueState} (h : QueueInv N s)
    {c : String} (hc : (s.groups c).active = true) :
    QueueInv N (finishTask N s c) :=
  queueInv_finishCommon h hc

lemma queueInv_shutdown {N : Nat} {s : QueueState} (h : QueueInv N s) :
    QueueInv N (shutdownQueue s) := by
  obtain ⟨A, hA1, hA2⟩ := h.count_eq
  refine ⟨⟨A, hA1, hA2⟩, h.count_le, h.wait_nodup, h.wait_inactive, ?_⟩
  intro h1 _
  have h1' : (true : Bool) = false := h1
  exact absurd h1' (by simp)

lemma queueInv_initial (N : Nat) : QueueInv N QueueState.initial := by
  refine ⟨⟨∅, fun c => ?_, rfl⟩, Nat.zero_le N, List.nodup_nil, ?_, fun _ _ => rfl⟩
  · simp [QueueState.initial, GroupState.initial]
  · intro c hc
    exact absurd hc (List.not_mem_nil c)

/-- C1: Queue invariant: at every instant, at most one job (message check
or task) is active per channel — `activeCount` accounts exactly one slot
per active channel; the global count of active jobs never exceeds
`MAX_CONCURRENT_CONTAINERS` (the cap `N`); and a channel id appears in the
waiting list at most once — preserved by every operation of the
`GroupQueue` (`enqueueMessageCheck`, `enqueueTask`, `runForGroup`,
`runTask`, `drainGroup`, `drainWaiting`) from the empty initial state. -/
theorem C1_group_queue_invariant (N : Nat) (s : QueueState)
    (h : QReachable N s) : QueueInv N s := by
  induction h with
  | init => exact queueInv_initial N
  | step _ hstep ih =>
    cases hstep with
    | enqueueMsg c => exact queueInv_enqueueMessageCheck ih c
    | enqueueTsk c taskId => exact queueInv_enqueueTask ih c taskId
    | finishMsg c success hact => exact queueInv_finishMessages ih hact success
    | finishTsk c hact => exact queueInv_finishTask ih hact
    | shut => exact queueInv_shutdown ih

/-- Witness for C1: the invariant holds at a concrete reachable state
(one message-check enqueued on the fresh queue with cap 2). -/
theorem C1_group_queue_invariant_witness :
    QueueInv 2 (enqueueMessageCheck 2 QueueState.initial "C1") :=
  C1_group_queue_invariant 2 _
    (QReachable.step QReachable.init (QStep.enqueueMsg QueueState.initial "C1"))

/-! ### Retry backoff (C6) -/

/-- Updating one channel's entry with a record that keeps its `retryCount`
leaves every channel's `retryCount` unchanged. -/
lemma update_retry_eq {f : String → GroupState} {c : String} {g : GroupState}
    (hg : g.retryCount = (f c).retryCount) (x : String) :
    ((Function.update f c g) x).retryCount = (f x).retryCount := by
  by_cases hx : x = c
  · subst hx; simp [hg]
  · simp [Function.update_noteq hx]

lemma retryCount_startMessages (s : QueueState) (c x : String) :
    ((startMessages s c).groups x).retryCount = (s.groups x).retryCount := by
  show ((Function.update s.groups c
    ({ s.groups c with active := true, pendingMessages := false })) x).retryCount = _
  apply update_retry_eq
  rfl

lemma retryCount_startTask (s : QueueState) (c x : String) :
    ((startTask s c).groups x).retryCount = (s.groups x).retryCount := by
  show ((Function.update s.groups c ({ s.groups c with active := true })) x).retryCount = _
  apply update_retry_eq
  rfl

lemma retryCount_deactivate (s : QueueState) (c x : String) :
    ((deactivate s c).groups x).retryCount = (s.groups x).retryCount := by
  show ((Function.update s.groups c ({ s.groups c with active := false })) x).retryCount = _
  apply update_retry_eq
  rfl

lemma retryCount_drainWaitingAux (N : Nat) (l : List String) :
    ∀ (s : QueueState) (x : String),
      ((drainWaitingAux N l s).groups x).retryCount = (s.groups x).retryCount := by
  induction l with
  | nil => intro s x; rfl
  | cons c rest ih =>
    intro s x
    rw [drainWaitingAux]
    by_cases hcnt : s.activeCount < N
    · rw [if_pos hcnt]
      rcases htasks : (s.groups c).pendingTasks with _ | ⟨t, ts⟩
      · simp only [htasks]
        by_cases hpm : (s.groups c).pendingMessages = true
        · rw [if_pos hpm, ih, retryCount_startMessages]
        · rw [if_neg hpm, ih]
      · simp only [htasks]
        rw [ih, retryCount_startTask]
        show ((Function.update s.groups c ({ s.groups c with pendingTasks := ts })) x).retryCount
          = _
        apply update_retry_eq
        rfl
    · rw [if_neg hcnt]

lemma retryCount_drainGroup (N : Nat) (s : QueueState) (c x : String) :
    ((drainGroup N s c).groups x).retryCount = (s.groups x).retryCount := by
  rw [drainGroup]
  by_cases hshut : s.shuttingDown = true
  · rw [if_pos hshut]
  · rw [if_neg hshut]
    simp only
    rcases htasks : (s.groups c).pendingTasks with _ | ⟨t, ts⟩
    · simp only [htasks]
      by_cases hpm : (s.groups c).pendingMessages = true
      · rw [if_pos hpm, retryCount_startMessages]
      · rw [if_neg hpm, drainWaiting, retryCount_drainWaitingAux]
    · simp only [htasks]
      rw [retryCount_startTask]
      show ((Function.update s.groups c ({ s.groups c with pendingTasks := ts })) x).retryCount
        = _
      apply update_retry_eq
      rfl

lemma retryCount_finishCommon (N : Nat) (s : QueueState) (c x : String) :
    ((finishCommon N s c).groups x).retryCount = (s.groups x).retryCount := by
  rw [finishCommon, retryCount_drainGroup, retryCount_deactivate]

lemma retryCount_finishMessages_success (N : Nat) (s : QueueState) (c : String) :
    ((finishMessages N s c true).groups c).retryCount = 0 := by
  show ((finishCommon N
    { s with groups := (Function.update s.groups c ({ s.groups c with retryCount := 0 })) }
    c).groups c).retryCount = 0
  rw [retryCount_finishCommon]
  show ((Function.update s.groups c ({ s.groups c with retryCount := 0 })) c).retryCount = 0
  rw [Function.update_same]

lemma retryCount_finishMessages_failure (N : Nat) (s : QueueState) (c : String) :
    ((finishMessages N s c false).groups c).retryCount
      = (scheduleRetry (s.groups c).retryCount).1 := by
  show ((finishCommon N
    { s with groups := (Function.update s.groups c
      ({ s.groups c with retryCount := (scheduleRetry (s.groups c).retryCount).1 })) }
    c).groups c).retryCount = _
  rw [retryCount_finishCommon]
  show ((Function.update s.groups c
    ({ s.groups c with retryCount := (scheduleRetry (s.groups c).retryCount).1 })) c).retryCount
    = _
  rw [Function.update_same]

/-- C6: Retry backoff: each failed message-processing attempt increments
the channel's `retryCount`; if the incremented count exceeds `MAX_RETRIES`
(5) it is reset to 0 and no retry is scheduled; otherwise a retry is
scheduled after `BASE_RETRY_MS * 2 ^ (retryCount - 1)` ms, giving delays
5s, 10s, 20s, 40s, 80s; and `retryCount` resets to 0 on any success. -/
theorem C6_retry_backoff (rc : Nat) (h : rc < MAX_RETRIES) :
    scheduleRetry rc = (rc + 1, some (BASE_RETRY_MS * 2 ^ ((rc + 1) - 1))) ∧
    scheduleRetry MAX_RETRIES = (0, none) ∧
    (BASE_RETRY_MS * 2 ^ 0 = 5000 ∧ BASE_RETRY_MS * 2 ^ 1 = 10000 ∧
      BASE_RETRY_MS * 2 ^ 2 = 20000 ∧ BASE_RETRY_MS * 2 ^ 3 = 40000 ∧
      BASE_RETRY_MS * 2 ^ 4 = 80000) ∧
    (∀ (N : Nat) (s : QueueState) (c : String),
      ((finishMessages N s c false).groups c).retryCount
        = (scheduleRetry (s.groups c).retryCount).1) ∧
    (∀ (N : Nat) (s : QueueState) (c : String),
      ((finishMessages N s c true).groups c).retryCount = 0) := by
  refine ⟨?_, ?_, by decide, retryCount_finishMessages_failure,
    retryCount_finishMessages_success⟩
  · show (if MAX_RETRIES < rc + 1 then ((0 : Nat), (none : Option Nat))
      else (rc + 1, some (BASE_RETRY_MS * 2 ^ (rc + 1 - 1)))) = _
    rw [if_neg (by omega)]
  · rfl

/-- Witness for C6 at `retryCount = 0`: first retry delay is 5000 ms and
the budget-exhausted call resets to zero. -/
theorem C6_retry_backoff_witness :
    scheduleRetry 0 = (1, some 5000) ∧ scheduleRetry MAX_RETRIES = (0, none) :=
  ⟨by simpa using (C6_retry_backoff 0 (by decide)).1, (C6_retry_backoff 0 (by decide)).2.1⟩

/-! ### Coalescing idempotence (C7) -/

/-- A record update that re-assigns `pendingMessages` to its current value
is the identity. -/
lemma GroupState.set_pendingMessages_self (g : GroupState) (h : g.pendingMessages = true) :
    ({ g with pendingMessages := true }) = g := by
  cases g
  simp only at h
  rw [h]

/-- On an active channel (shutdown not in progress), `enqueueMessageCheck`
only sets the coalescing flag. -/
lemma enqueueMessageCheck_active {N : Nat} {s : QueueState} {c : String}
    (hshut : s.shuttingDown = false) (hact : (s.groups c).active = true) :
    enqueueMessageCheck N s c
      = { s with groups :=
            (Function.update s.groups c ({ s.groups c with pendingMessages := true })) } := by
  rw [enqueueMessageCheck, if_neg (by rw [hshut]; simp)]
  simp only
  rw [if_pos hact]

/-- On an active channel, a second `enqueueMessageCheck` is a no-op. -/
lemma enqueueMessageCheck_idem {N : Nat} {s : QueueState} {c : String}
    (hshut : s.shuttingDown = false) (hact : (s.groups c).active = true) :
    enqueueMessageCheck N (enqueueMessageCheck N s c) c = enqueueMessageCheck N s c := by
  rw [enqueueMessageCheck_active hshut hact]
  have hact1 : ((Function.update s.groups c
      ({ s.groups c with pendingMessages := true })) c).active = true := by
    rw [Function.update_same]; exact hact
  rw [enqueueMessageCheck_active (s := { s with groups :=
    (Function.update s.groups c ({ s.groups c with pendingMessages := true })) }) hshut hact1]
  have hself : ({ (Function.update s.groups c
      ({ s.groups c with pendingMessages := true })) c with pendingMessages := true })
      = (Function.update s.groups c ({ s.groups c with pendingMessages := true })) c :=
    GroupState.set_pendingMessages_self _ (by rw [Function.update_same])
  rw [show ({ s with groups :=
      (Function.update s.groups c ({ s.groups c with pendingMessages := true })) }
      : QueueState).groups
      = Function.update s.groups c ({ s.groups c with pendingMessages := true }) from rfl]
  rw [hself, Function.update_eq_self]

/-- When a channel has no queued task but a coalesced message flag,
`drainGroup` starts exactly one new message pass for it. -/
lemma drainGroup_msg {N : Nat} {s : QueueState} {c : String}
    (hshut : s.shuttingDown = false) (hpt : (s.groups c).pendingTasks = [])
    (hpm : (s.groups c).pendingMessages = true) :
    drainGroup N s c = startMessages s c := by
  rw [drainGroup, if_neg (by rw [hshut]; simp)]
  simp only [hpt, hpm, if_true]

/-- C7: Coalescing idempotence: calling `enqueueMessageCheck c` any number
`n ≥ 1` of times while channel `c` has an active job (and shutdown is not
in progress) yields exactly the state of calling it once, with
`pendingMessages` simply `true`; and when the in-flight job completes
(with no queued tasks) exactly one drain pass starts for `c` — the channel
is running again with the coalescing flag cleared. -/
theorem C7_coalescing_idempotence (N n : Nat) (s : QueueState) (c : String)
    (hn : 1 ≤ n) (hact : (s.groups c).active = true) (hshut : s.shuttingDown = false) :
    (fun t => enqueueMessageCheck N t c)^[n] s = enqueueMessageCheck N s c ∧
    (((fun t => enqueueMessageCheck N t c)^[n] s).groups c).pendingMessages = true ∧
    ((s.groups c).pendingTasks = [] →
      ((finishMessages N ((fun t => enqueueMessageCheck N t c)^[n] s) c true).groups c).active
          = true ∧
      ((finishMessages N ((fun t => enqueueMessageCheck N t c)^[n] s) c true).groups
          c).pendingMessages = false) := by
  have hiter : (fun t => enqueueMessageCheck N t c)^[n] s = enqueueMessageCheck N s c := by
    obtain ⟨m, rfl⟩ := Nat.exists_eq_add_of_le hn
    clear hn
    induction m with
    | zero => simp
    | succ k ih =>
      rw [show 1 + (k + 1) = (1 + k) + 1 from rfl, Function.iterate_succ_apply', ih]
      exact enqueueMessageCheck_idem hshut hact
  rw [hiter, enqueueMessageCheck_active hshut hact]
  refine ⟨rfl, ?_, ?_⟩
  · show ((Function.update s.groups c
      ({ s.groups c with pendingMessages := true })) c).pendingMessages = true
    rw [Function.update_same]
  intro htasks
  set s1 : QueueState := { s with groups :=
    (Function.update s.groups c ({ s.groups c with pendingMessages := true })) } with hs1
  -- after the success path resets retryCount and the finally block
  -- deactivates the channel, drainGroup sees no pending task and the
  -- coalesced flag, so it starts exactly one new message pass
  have hg1 : s1.groups c = { s.groups c with pendingMessages := true } := by
    rw [hs1]
    show Function.update s.groups c _ c = _
    rw [Function.update_same]
  have hstep : finishMessages N s1 c true
      = drainGroup N (deactivate { s1 with groups :=
          (Function.update s1.groups c ({ s1.groups c with retryCount := 0 })) } c) c := rfl
  rw [hstep]
  set s2 : QueueState := { s1 with groups :=
    (Function.update s1.groups c ({ s1.groups c with retryCount := 0 })) } with hs2
  have hg2 : s2.groups c = { s1.groups c with retryCount := 0 } := by
    rw [hs2]
    show Function.update s1.groups c _ c = _
    rw [Function.update_same]
  set d : QueueState := deactivate s2 c with hdd
  have hgd : d.groups c = { s2.groups c with active := false } := by
    rw [hdd]
    show Function.update s2.groups c _ c = _
    rw [Function.update_same]
  have hdshut : d.shuttingDown = false := hshut
  have hdpt : (d.groups c).pendingTasks = [] := by
    rw [hgd]
    show (s2.groups c).pendingTasks = []
    rw [hg2]
    show (s1.groups c).pendingTasks = []
    rw [hg1]
    exact htasks
  have hdpm : (d.groups c).pendingMessages = true := by
    rw [hgd]
    show (s2.groups c).pendingMessages = true
    rw [hg2]
    show (s1.groups c).pendingMessages = true
    rw [hg1]
  rw [drainGroup_msg hdshut hdpt hdpm]
  constructor
  · rw [startMessages_groups_active, if_pos rfl]
  · show ((Function.update d.groups c
      ({ d.groups c with active := true, pendingMessages := false })) c).pendingMessages = false
    rw [Function.update_same]

/-- Witness for C7 at a concrete state: a fresh queue with channel `"c"`
started, three coalesced enqueues. -/
theorem C7_coalescing_idempotence_witness :
    (fun t => enqueueMessageCheck 2 t "c")^[3] (startMessages QueueState.initial "c")
      = enqueueMessageCheck 2 (startMessages QueueState.initial "c") "c" ∧
    (((fun t => enqueueMessageCheck 2 t "c")^[3]
        (startMessages QueueState.initial "c")).groups "c").pendingMessages = true ∧
    (((startMessages QueueState.initial "c").groups "c").pendingTasks = [] →
      ((finishMessages 2 ((fun t => enqueueMessageCheck 2 t "c")^[3]
          (startMessages QueueState.initial "c")) "c" true).groups "c").active = true ∧
      ((finishMessages 2 ((fun t => enqueueMessageCheck 2 t "c")^[3]
          (startMessages QueueState.initial "c")) "c" true).groups
          "c").pendingMessages = false) :=
  C7_coalescing_idempotence 2 3 (startMessages QueueState.initial "c") "c"
    (by decide)
    (by rw [startMessages_groups_active]; simp)
    rfl

/-! ## Outbound chunking: `splitMessage` (`src/index.ts`)

Texts are `List Char`.  `lastIndexOfWithin l ch pos` is JS
`l.lastIndexOf(ch, pos)`: the greatest index `i ≤ pos` with `l[i] = ch`
(`none` for JS `-1`).  The comparison `splitAt < maxLength / 2` is JS float
division; `2 * i < maxLength` is its exact integer form. -/

/-- Helper for `lastIndexOfWithin`: scans `l` whose head sits at index `i`,
preferring the latest admissible match. -/
def lastIndexOfWithinAux (ch : Char) (pos : Nat) : List Char → Nat → Option Nat
  | [], _ => none
  | c :: rest, i =>
    match lastIndexOfWithinAux ch pos rest (i + 1) with
    | some j => some j
    | none => if i ≤ pos ∧ c = ch then some i else none

/-- JS `String.prototype.lastIndexOf(ch, pos)` for a single character. -/
def lastIndexOfWithin (l : List Char) (ch : Char) (pos : Nat) : Option Nat :=
  lastIndexOfWithinAux ch pos l 0

/-- JS whitespace stripped by `trimStart` (the code points that can occur
in chat text here). -/
def isJsWhitespace (c : Char) : Bool :=
  c == ' ' || c == '\t' || c == '\n' || c == '\r'
    || c == Char.ofNat 11 || c == Char.ofNat 12

/-- JS `String.prototype.trimStart`. -/
def jsTrimStart (l : List Char) : List Char :=
  l.dropWhile isJsWhitespace

/-- The split position the loop body of `splitMessage` computes: last
newline at or before the limit, discarded when below half the limit, then
last space under the same rule, then the hard limit. -/
def splitChunkAt (remaining : List Char) (maxLength : Nat) : Nat :=
  match lastIndexOfWithin remaining '\n' maxLength with
  | some i =>
    if 2 * i < maxLength then
      match lastIndexOfWithin remaining ' ' maxLength with
      | some j => if 2 * j < maxLength then maxLength else j
      | none => maxLength
    else i
  | none =>
    match lastIndexOfWithin remaining ' ' maxLength with
    | some j => if 2 * j < maxLength then maxLength else j
    | none => maxLength

/-- The `while remaining.length > 0` loop of `splitMessage`.  `fuel` is a
termination device: the caller passes `remaining.length`, which suffices
because every iteration consumes at least one character when
`1 ≤ maxLength` (so the `0` case with a nonempty remainder is never
reached from `splitMessage`). -/
def splitMessageGo (maxLength : Nat) : Nat → List Char → List (List Char) → List (List Char)
  | 0, remaining, chunks => if remaining.length = 0 then chunks else chunks ++ [remaining]
  | fuel + 1, remaining, chunks =>
    if remaining.length = 0 then chunks
    else if remaining.length ≤ maxLength then chunks ++ [remaining]
    else
      splitMessageGo maxLength fuel
        (jsTrimStart (remaining.drop (splitChunkAt remaining maxLength)))
        (chunks ++ [remaining.take (splitChunkAt remaining maxLength)])

/-- `splitMessage` from `src/index.ts`. -/
def splitMessage (text : List Char) (maxLength : Nat) : List (List Char) :=
  if text.length ≤ maxLength then [text]
  else splitMessageGo maxLength text.length text []

/-- The first split position as C9 words it: the nearest newline before
the limit, then the nearest space, with the hard limit as fallback — with
no half-limit proviso. -/
def splitChunkAtClaimed (remaining : List Char) (maxLength : Nat) : Nat :=
  match lastIndexOfWithin remaining '\n' maxLength with
  | some i => i
  | none =>
    match lastIndexOfWithin remaining ' ' maxLength with
    | some j => j
    | none => maxLength

lemma lastIndexOfWithinAux_le {ch : Char} {pos : Nat} :
    ∀ {l : List Char} {i j : Nat}, lastIndexOfWithinAux ch pos l i = some j → j ≤ pos := by
  intro l
  induction l with
  | nil => intro i j h; exact absurd h (by rw [lastIndexOfWithinAux]; simp)
  | cons c rest ih =>
    intro i j h
    rw [lastIndexOfWithinAux] at h
    rcases hrec : lastIndexOfWithinAux ch pos rest (i + 1) with _ | k
    · rw [hrec] at h
      simp only at h
      by_cases hcond : i ≤ pos ∧ c = ch
      · rw [if_pos hcond] at h
        cases h
        exact hcond.1
      · rw [if_neg hcond] at h
        cases h
    · rw [hrec] at h
      simp only at h
      cases h
      exact ih hrec

lemma lastIndexOfWithin_le {l : List Char} {ch : Char} {pos j : Nat}
    (h : lastIndexOfWithin l ch pos = some j) : j ≤ pos :=
  lastIndexOfWithinAux_le h

lemma splitChunkAt_le (remaining : List Char) (maxLength : Nat) :
    splitChunkAt remaining maxLength ≤ maxLength := by
  rw [splitChunkAt]
  rcases hnl : lastIndexOfWithin remaining '\n' maxLength with _ | i
  · simp only
    rcases hsp : lastIndexOfWithin remaining ' ' maxLength with _ | j
    · simp only; exact Nat.le_refl _
    · simp only
      by_cases hj : 2 * j < maxLength
      · rw [if_pos hj]
      · rw [if_neg hj]; exact lastIndexOfWithin_le hsp
  · simp only
    by_cases hi : 2 * i < maxLength
    · rw [if_pos hi]
      rcases hsp : lastIndexOfWithin remaining ' ' maxLength with _ | j
      · simp only; exact Nat.le_refl _
      · simp only
        by_cases hj : 2 * j < maxLength
        · rw [if_pos hj]
        · rw [if_neg hj]; exact lastIndexOfWithin_le hsp
    · rw [if_neg hi]
      exact lastIndexOfWithin_le hnl

lemma splitChunkAt_pos (remaining : List Char) {maxLength : Nat} (h : 1 ≤ maxLength) :
    1 ≤ splitChunkAt remaining maxLength := by
  rw [splitChunkAt]
  rcases hnl : lastIndexOfWithin remaining '\n' maxLength with _ | i
  · simp only
    rcases hsp : lastIndexOfWithin remaining ' ' maxLength with _ | j
    · simpa using h
    · simp only
      by_cases hj : 2 * j < maxLength
      · rw [if_pos hj]; exact h
      · rw [if_neg hj]; omega
  · simp only
    by_cases hi : 2 * i < maxLength
    · rw [if_pos hi]
      rcases hsp : lastIndexOfWithin remaining ' ' maxLength with _ | j
      · simpa using h
      · simp only
        by_cases hj : 2 * j < maxLength
        · rw [if_pos hj]; exact h
        · rw [if_neg hj]; omega
    · rw [if_neg hi]; omega

lemma jsTrimStart_length_le (l : List Char) : (jsTrimStart l).length ≤ l.length := by
  rw [jsTrimStart]
  exact (List.dropWhile_suffix isJsWhitespace).sublist.length_le

lemma splitMessageGo_bounded {maxLength : Nat} (hmax : 1 ≤ maxLength) :
    ∀ (fuel : Nat) (remaining : List Char) (chunks : List (List Char)),
      remaining.length ≤ fuel →
      (∀ ch ∈ chunks, List.length ch ≤ maxLength) →
      ∀ ch ∈ splitMessageGo maxLength fuel remaining chunks, List.length ch ≤ maxLength := by
  intro fuel
  induction fuel with
  | zero =>
    intro remaining chunks hlen hacc ch hch
    rw [splitMessageGo] at hch
    have : remaining.length = 0 := Nat.le_zero.mp hlen
    rw [if_pos this] at hch
    exact hacc ch hch
  | succ fuel ih =>
    intro remaining chunks hlen hacc ch hch
    rw [splitMessageGo] at hch
    by_cases h0 : remaining.length = 0
    · rw [if_pos h0] at hch
      exact hacc ch hch
    · rw [if_neg h0] at hch
      by_cases hle : remaining.length ≤ maxLength
      · rw [if_pos hle] at hch
        rcases List.mem_append.mp hch with hch | hch
        · exact hacc ch hch
        · rw [List.mem_singleton.mp hch]
          exact hle
      · rw [if_neg hle] at hch
        refine ih _ _ ?_ ?_ ch hch
        · have h1 : 1 ≤ splitChunkAt remaining maxLength := splitChunkAt_pos _ hmax
          have h2 : (jsTrimStart (remaining.drop (splitChunkAt remaining maxLength))).length
              ≤ remaining.length - splitChunkAt remaining maxLength := by
            refine Nat.le_trans (jsTrimStart_length_le _) ?_
            rw [List.length_drop]
          omega
        · intro ch' hch'
          rcases List.mem_append.mp hch' with hch' | hch'
          · exact hacc ch' hch'
          · rw [List.mem_singleton.mp hch']
            rw [List.length_take]
            exact Nat.le_trans (Nat.min_le_left _ _) (splitChunkAt_le _ _)

/-- The accumulator of `splitMessageGo` is a prefix of its result. -/
lemma splitMessageGo_acc (maxLength : Nat) :
    ∀ (fuel : Nat) (remaining : List Char) (chunks : List (List Char)),
      splitMessageGo maxLength fuel remaining chunks
        = chunks ++ splitMessageGo maxLength fuel remaining [] := by
  intro fuel
  induction fuel with
  | zero =>
    intro remaining chunks
    rw [splitMessageGo, splitMessageGo]
    by_cases h0 : remaining.length = 0
    · rw [if_pos h0, if_pos h0, List.append_nil]
    · rw [if_neg h0, if_neg h0, List.nil_append]
  | succ fuel ih =>
    intro remaining chunks
    rw [splitMessageGo]
    conv_rhs => rw [splitMessageGo]
    by_cases h0 : remaining.length = 0
    · rw [if_pos h0, if_pos h0, List.append_nil]
    · rw [if_neg h0, if_neg h0]
      by_cases hle : remaining.length ≤ maxLength
      · rw [if_pos hle, if_pos hle, List.nil_append]
      · rw [if_neg hle, if_neg hle]
        rw [ih _ (chunks ++ _), ih _ ([] ++ _), List.nil_append, List.append_assoc]

lemma lastIndexOfWithinAux_replicate_none {ch c : Char} (h : ¬(c = ch)) (pos : Nat) :
    ∀ (n i : Nat), lastIndexOfWithinAux ch pos (List.replicate n c) i = none := by
  intro n
  induction n with
  | zero => intro i; rfl
  | succ k ih =>
    intro i
    rw [List.replicate_succ, lastIndexOfWithinAux, ih (i + 1)]
    show (if i ≤ pos ∧ c = ch then some i else none) = none
    rw [if_neg (fun hc => h hc.2)]

lemma lastIndexOfWithinAux_append (ch : Char) (pos : Nat) :
    ∀ (l₁ l₂ : List Char) (i : Nat),
      lastIndexOfWithinAux ch pos (l₁ ++ l₂) i
        = match lastIndexOfWithinAux ch pos l₂ (i + l₁.length) with
          | some j => some j
          | none => lastIndexOfWithinAux ch pos l₁ i := by
  intro l₁
  induction l₁ with
  | nil =>
    intro l₂ i
    rw [List.nil_append, List.length_nil, Nat.add_zero]
    rcases h : lastIndexOfWithinAux ch pos l₂ i with _ | j
    · rfl
    · rfl
  | cons c t ih =>
    intro l₂ i
    rw [List.cons_append, lastIndexOfWithinAux, ih l₂ (i + 1)]
    rw [List.length_cons]
    rw [show i + 1 + t.length = i + (t.length + 1) from by omega]
    rcases h : lastIndexOfWithinAux ch pos l₂ (i + (t.length + 1)) with _ | j
    · rfl
    · rfl

/-- Counterexample text for C9: 500 `a`s, one newline, 1501 `b`s — a
newline exists before the 2000-character limit but in its first half, and
no space exists at all. -/
def C9cexText : List Char := List.replicate 500 'a' ++ '\n' :: List.replicate 1501 'b'

lemma C9cex_length : C9cexText.length = 2002 := by
  rw [C9cexText, List.length_append, List.length_replicate, List.length_cons,
    List.length_replicate]

lemma C9cex_newline : lastIndexOfWithin C9cexText '\n' 2000 = some 500 := by
  rw [lastIndexOfWithin, C9cexText, lastIndexOfWithinAux_append, List.length_replicate]
  rw [show (0 : Nat) + 500 = 500 from rfl]
  rw [lastIndexOfWithinAux,
    lastIndexOfWithinAux_replicate_none (by decide) 2000 1501 (500 + 1)]
  show (if (500 : Nat) ≤ 2000 ∧ '\n' = '\n' then some 500 else none) = some 500
  rw [if_pos ⟨by omega, rfl⟩]

lemma C9cex_space : lastIndexOfWithin C9cexText ' ' 2000 = none := by
  rw [lastIndexOfWithin, C9cexText, lastIndexOfWithinAux_append, List.length_replicate]
  rw [show (0 : Nat) + 500 = 500 from rfl]
  rw [lastIndexOfWithinAux,
    lastIndexOfWithinAux_replicate_none (by decide) 2000 1501 (500 + 1)]
  rw [lastIndexOfWithinAux_replicate_none (by decide) 2000 500 0]
  show (if (500 : Nat) ≤ 2000 ∧ '\n' = ' ' then some 500 else none) = none
  rw [if_neg (fun hc => by cases hc.2)]

lemma C9cex_splitChunkAt : splitChunkAt C9cexText 2000 = 2000 := by
  rw [splitChunkAt, C9cex_newline, C9cex_space]
  decide

lemma C9cex_splitChunkAtClaimed : splitChunkAtClaimed C9cexText 2000 = 500 := by
  rw [splitChunkAtClaimed, C9cex_newline]

lemma C9cex_first_chunk :
    (splitMessage C9cexText 2000).head? = some (C9cexText.take 2000) := by
  rw [splitMessage, C9cex_length, if_neg (by omega)]
  rw [show (2002 : Nat) = 2001 + 1 from rfl, splitMessageGo, C9cex_length]
  rw [if_neg (by omega), if_neg (by omega), C9cex_splitChunkAt]
  rw [List.nil_append, splitMessageGo_acc, List.singleton_append]
  rfl

/-- C9 as stated is false: on `C9cexText` a newline exists before the
2000-character limit (at index 500), yet the code does not split there —
the first chunk is the hard 2000-character split, because the newline
lies below half the limit and there is no admissible space. -/
theorem C9_counterexample :
    ¬ ((splitMessage C9cexText 2000).head?
        = some (C9cexText.take (splitChunkAtClaimed C9cexText 2000))) := by
  rw [C9cex_first_chunk, C9cex_splitChunkAtClaimed]
  intro h
  have h2 := Option.some.inj h
  have hlen := congrArg List.length h2
  rw [List.length_take, List.length_take, C9cex_length] at hlen
  omega

/-- C9 (amended): every chunk of `splitMessage` has length ≤ 2000; a text
of length ≤ 2000 is returned as a single unmodified chunk; and for longer
texts the first chunk ends at the last newline at or before the limit
provided that newline sits at or beyond half the limit, else at the last
space under the same proviso, else exactly at the limit
(`splitChunkAt`). -/
theorem C9_split_message_amended (text : List Char) :
    (∀ chunk ∈ splitMessage text 2000, List.length chunk ≤ 2000) ∧
    (text.length ≤ 2000 → splitMessage text 2000 = [text]) ∧
    (2000 < text.length →
      (splitMessage text 2000).head? = some (text.take (splitChunkAt text 2000))) := by
  refine ⟨?_, ?_, ?_⟩
  · intro chunk hch
    rw [splitMessage] at hch
    by_cases hle : text.length ≤ 2000
    · rw [if_pos hle] at hch
      rw [List.mem_singleton.mp hch]
      exact hle
    · rw [if_neg hle] at hch
      exact splitMessageGo_bounded (by omega) _ _ _ (Nat.le_refl _)
        (fun ch h => absurd h (List.not_mem_nil ch)) chunk hch
  · intro hle
    rw [splitMessage, if_pos hle]
  · intro hgt
    obtain ⟨m, hm⟩ : ∃ m, text.length = m + 1 := ⟨text.length - 1, by omega⟩
    rw [splitMessage, hm, if_neg (by omega), splitMessageGo]
    rw [hm, if_neg (by omega), if_neg (by omega)]
    rw [List.nil_append, splitMessageGo_acc, List.singleton_append]
    rfl

/-- Witness for the amended C9 at a concrete short text. -/
theorem C9_split_message_amended_witness :
    splitMessage ('h' :: 'i' :: []) 2000 = [('h' :: 'i' :: [])] :=
  (C9_split_message_amended ('h' :: 'i' :: [])).2.1 (by decide)

/-! ## Per-channel message processor (`src/index.ts`)

`processGroupMessages` and `runAgent`.  Database reads
(`registeredGroups[channelId]`, `getMessagesSince`) and the container
launch are effect parameters: `group?` is the registration lookup,
`missed` the fetched batch (already filtered to timestamps after the
watermark and senders other than the bot), and `outcome` is what
`runContainerAgent` produced (`Except.error` models a thrown exception).
`trig` abstracts `TRIGGER_PATTERN.test (content.trim())`. -/

/-- A `messages` row as `getMessagesSince` returns it. -/
structure MsgRow where
  sender_name : String
  content : String
  timestamp : String
  mentions_bot : Nat
deriving Repr, DecidableEq

/-- `AgentResponse.outputType` values. -/
inductive OutputType
  | message
  | log
deriving Repr, DecidableEq

/-- `AgentResponse` from the container runner. -/
structure AgentResponse where
  outputType : OutputType
  userMessage : Option String := none
  internalLog : Option String := none
deriving Repr, DecidableEq

/-- `ContainerOutput.status` values. -/
inductive RunStatus
  | success
  | error
deriving Repr, DecidableEq

/-- The framed `ContainerOutput` JSON object. -/
structure ContainerOutput where
  status : RunStatus
  result : Option AgentResponse
  newSessionId : Option String := none
  error : Option String := none
deriving Repr, DecidableEq

/-- A registered channel's config (`RegisteredGroup` in `types.ts`);
fields not consulted by the embedded functions are omitted. -/
structure RegisteredGroup where
  name : String
  folder : String
  trigger : String
  requiresTrigger : Option Bool := none
deriving Repr, DecidableEq

/-- JS truthiness of an optional string (`undefined` and `""` are falsy). -/
def strTruthy : Option String → Bool
  | none => false
  | some s => !(s == "")

/-- Host-side mutable state the processor touches (it is persisted on
every mutation, so the in-memory and stored values coincide). -/
structure HostState where
  lastAgentTimestamp : String → Option String
  sessions : String → Option String

/-- `runAgent` from `src/index.ts`, as a function of the container
outcome: persist `newSessionId` when truthy (before looking at `status`),
then return `none` (the `'error'` sentinel) on `status == error` or a
thrown exception, else the result defaulted to `{outputType: log}`. -/
def runAgent (sessions : String → Option String) (folder : String)
    (outcome : Except Unit ContainerOutput) :
    (String → Option String) × Option AgentResponse :=
  match outcome with
  | .error _ => (sessions, none)
  | .ok output =>
    let sessions' :=
      match output.newSessionId with
      | some sid => if sid = "" then sessions else Function.update sessions folder (some sid)
      | none => sessions
    if output.status = .error then (sessions', none)
    else (sessions', some (output.result.getD { outputType := .log }))

/-- What one `processGroupMessages` call did. -/
structure ProcResult where
  success : Bool
  ranAgent : Bool
  state : HostState
  sent : Option String

/-- `processGroupMessages` from `src/index.ts` (prompt formatting and the
typing indicator elided; they do not touch the modelled state). -/
def processGroupMessages (mainFolder : String) (trig : String → Bool)
    (assistantName : String) (group? : Option RegisteredGroup) (missed : List MsgRow)
    (outcome : Except Unit ContainerOutput) (st : HostState) (channelId : String) :
    ProcResult :=
  match group? with
  | none => { success := true, ranAgent := false, state := st, sent := none }
  | some group =>
    let isMainGroup := group.folder == mainFolder
    if missed.isEmpty then
      { success := true, ranAgent := false, state := st, sent := none }
    else if ¬(group.requiresTrigger = some false) ∧ isMainGroup = false ∧
        missed.any (fun m => m.mentions_bot == 1 || trig m.content) = false then
      { success := true, ranAgent := false, state := st, sent := none }
    else
      let ra := runAgent st.sessions group.folder outcome
      match ra.2 with
      | none =>
        { success := false, ranAgent := true
          state := { st with sessions := ra.1 }, sent := none }
      | some response =>
        let lastTs := ((missed.getLast?).getD ⟨"", "", "", 0⟩).timestamp
        let st' : HostState :=
          { lastAgentTimestamp :=
              (Function.update st.lastAgentTimestamp channelId (some lastTs))
            sessions := ra.1 }
        let sent :=
          if response.outputType = .message ∧ strTruthy response.userMessage then
            some (assistantName ++ ": " ++ (response.userMessage.getD ""))
          else none
        { success := true, ranAgent := true, state := st', sent := sent }

/-- Whether the container runner reported an error (thrown exception or
`status == error`). -/
def runnerErrored : Except Unit ContainerOutput → Bool
  | .error _ => true
  | .ok o => o.status == .error

lemma runAgent_snd_none_iff (sessions : String → Option String) (folder : String)
    (outcome : Except Unit ContainerOutput) :
    (runAgent sessions folder outcome).2 = none ↔ runnerErrored outcome = true := by
  cases outcome with
  | error e => simp [runAgent, runnerErrored]
  | ok output =>
    rw [runAgent, runnerErrored]
    by_cases hst : output.status = .error
    · simp [hst]
    · have : ¬(output.status == RunStatus.error) = true := by
        simpa using hst
      simp [if_neg hst, this]

lemma runAgent_fst_error (sessions : String → Option String) (folder : String) :
    (runAgent sessions folder (.error ())).1 = sessions := rfl

/-- C4: When the container runner reports an error (thrown or
`status == error`) for a batch that reached the runner, the processor
returns failure — so the queue retries with backoff — and
`last_agent_timestamp[channelId]` is not advanced; only on success is
`last_agent_timestamp[channelId]` set to the timestamp of the last message
of the batch (the state record being the persisted one). -/
theorem C4_runner_error_handling (mainFolder : String) (trig : String → Bool)
    (assistantName : String) (group : RegisteredGroup) (missed : List MsgRow)
    (outcome : Except Unit ContainerOutput) (st : HostState) (channelId : String)
    (hran : (processGroupMessages mainFolder trig assistantName (some group) missed outcome
      st channelId).ranAgent = true) :
    (runnerErrored outcome = true →
      (processGroupMessages mainFolder trig assistantName (some group) missed outcome
        st channelId).success = false ∧
      (processGroupMessages mainFolder trig assistantName (some group) missed outcome
        st channelId).state.lastAgentTimestamp = st.lastAgentTimestamp) ∧
    (runnerErrored outcome = false →
      (processGroupMessages mainFolder trig assistantName (some group) missed outcome
        st channelId).success = true ∧
      (processGroupMessages mainFolder trig assistantName (some group) missed outcome
        st channelId).state.lastAgentTimestamp
        = Function.update st.lastAgentTimestamp channelId
            (some (((missed.getLast?).getD ⟨"", "", "", 0⟩).timestamp))) := by
  simp only [processGroupMessages] at hran ⊢
  by_cases hemp : missed.isEmpty = true
  · rw [if_pos hemp] at hran
    exact absurd hran (by simp)
  · rw [if_neg hemp] at hran ⊢
    by_cases htrg : ¬(group.requiresTrigger = some false) ∧ (group.folder == mainFolder) = false
        ∧ missed.any (fun m => m.mentions_bot == 1 || trig m.content) = false
    · rw [if_pos htrg] at hran
      exact absurd hran (by simp)
    · rw [if_neg htrg]
      constructor
      · intro herr
        have h2 : (runAgent st.sessions group.folder outcome).2 = none :=
          (runAgent_snd_none_iff _ _ _).mpr herr
        rw [h2]
        exact ⟨rfl, rfl⟩
      · intro hok
        rcases hra : (runAgent st.sessions group.folder outcome).2 with _ | response
        · rw [runAgent_snd_none_iff, hok] at hra
          cases hra
        · exact ⟨rfl, rfl⟩

/-- Witness for C4: a triggered batch processed successfully advances the
watermark to the batch's last timestamp. -/
theorem C4_runner_error_handling_witness :
    (processGroupMessages "main" (fun _ => false) "Andy"
      (some { name := "g", folder := "g1", trigger := "nano" })
      [{ sender_name := "u1", content := "hello", timestamp := "1", mentions_bot := 1 }]
      (.ok { status := .success, result := some { outputType := .message, userMessage := some "hi" } })
      { lastAgentTimestamp := fun _ => none, sessions := fun _ => none } "C1").success = true ∧
    (processGroupMessages "main" (fun _ => false) "Andy"
      (some { name := "g", folder := "g1", trigger := "nano" })
      [{ sender_name := "u1", content := "hello", timestamp := "1", mentions_bot := 1 }]
      (.ok { status := .success, result := some { outputType := .message, userMessage := some "hi" } })
      { lastAgentTimestamp := fun _ => none, sessions := fun _ => none } "C1").state.lastAgentTimestamp
      = Function.update (fun _ => none) "C1"
          (some ((([(⟨"u1", "hello", "1", 1⟩ : MsgRow)] : List MsgRow)).getLast?.getD
            ⟨"", "", "", 0⟩).timestamp) :=
  (C4_runner_error_handling "main" (fun _ => false) "Andy"
    { name := "g", folder := "g1", trigger := "nano" }
    [{ sender_name := "u1", content := "hello", timestamp := "1", mentions_bot := 1 }]
    (.ok { status := .success, result := some { outputType := .message, userMessage := some "hi" } })
    { lastAgentTimestamp := fun _ => none, sessions := fun _ => none } "C1" rfl).2 rfl

/-- C5: Trigger gating: for a non-main channel with `requiresTrigger` not
`false`, the agent runs only if some pending message mentions the bot or
matches the trigger; with no such message the processor reports success
without running the agent and without touching state; the main channel
bypasses the check entirely (even when `requiresTrigger = true`). -/
theorem C5_trigger_gating (mainFolder : String) (trig : String → Bool)
    (assistantName : String) (group : RegisteredGroup) (missed : List MsgRow)
    (outcome : Except Unit ContainerOutput) (st : HostState) (channelId : String) :
    (¬(group.folder = mainFolder) → ¬(group.requiresTrigger = some false) →
      missed.any (fun m => m.mentions_bot == 1 || trig m.content) = false →
      (processGroupMessages mainFolder trig assistantName (some group) missed outcome
        st channelId).success = true ∧
      (processGroupMessages mainFolder trig assistantName (some group) missed outcome
        st channelId).ranAgent = false ∧
      (processGroupMessages mainFolder trig assistantName (some group) missed outcome
        st channelId).state = st) ∧
    ((processGroupMessages mainFolder trig assistantName (some group) missed outcome
        st channelId).ranAgent = true →
      group.folder = mainFolder ∨ group.requiresTrigger = some false ∨
      missed.any (fun m => m.mentions_bot == 1 || trig m.content) = true) ∧
    (group.folder = mainFolder → ¬(missed = []) →
      (processGroupMessages mainFolder trig assistantName (some group) missed outcome
        st channelId).ranAgent = true) := by
  refine ⟨?_, ?_, ?_⟩
  · intro hmain hreq htrig
    simp only [processGroupMessages]
    by_cases hemp : missed.isEmpty = true
    · rw [if_pos hemp]
      exact ⟨rfl, rfl, rfl⟩
    · rw [if_neg hemp, if_pos ⟨hreq, by simpa using hmain, htrig⟩]
      exact ⟨rfl, rfl, rfl⟩
  · intro hran
    simp only [processGroupMessages] at hran
    by_cases hemp : missed.isEmpty = true
    · rw [if_pos hemp] at hran
      exact absurd hran (by simp)
    · rw [if_neg hemp] at hran
      by_cases htrg : ¬(group.requiresTrigger = some false) ∧ (group.folder == mainFolder) = false
          ∧ missed.any (fun m => m.mentions_bot == 1 || trig m.content) = false
      · rw [if_pos htrg] at hran
        exact absurd hran (by simp)
      · rcases Decidable.not_and_iff_or_not.mp htrg with h | h
        · exact Or.inr (Or.inl (Decidable.not_not.mp h))
        · rcases Decidable.not_and_iff_or_not.mp h with h2 | h2
          · refine Or.inl ?_
            have := Bool.eq_true_of_not_eq_false h2
            simpa using this
          · refine Or.inr (Or.inr ?_)
            exact Bool.eq_true_of_not_eq_false h2
  · intro hmain hne
    simp only [processGroupMessages]
    have hemp : ¬(missed.isEmpty = true) := by
      simpa [List.isEmpty_iff] using hne
    rw [if_neg hemp]
    have hfold : (group.folder == mainFolder) = true := by
      simpa using hmain
    rw [if_neg (by rintro ⟨-, hf, -⟩; rw [hfold] at hf; cases hf)]
    rcases hra : (runAgent st.sessions group.folder outcome).2 with _ | response
    · rfl
    · rfl

/-! ## Agent function-calling loop (agent-runner source file)

The loop inside the sandbox.  The LLM is a parameter `respond` giving the
model's reply on each turn; tool execution results are carried inside
`ModelResponse.calls` (their content is opaque to the loop's control
flow); part payloads are opaque strings.  `cleanText` abstracts
`text.trim()` followed by the `[SILENT]` strip and second trim. -/

/-- `MAX_TURNS` constant from the agent-runner source file. -/
def MAX_TURNS : Nat := 30

/-- One history entry (`GeminiContent`), with opaque part payloads. -/
structure GeminiContent where
  role : String
  parts : List String
deriving Repr, DecidableEq

/-- What `ai.models.generateContent` came back with on one turn: function
calls (raw model parts plus one tool result per call) or final text. -/
inductive ModelResponse
  | calls (rawParts : List String) (toolResults : List String)
  | text (t : String)

/-- `ContainerInput` from stdin. -/
structure ContainerInput where
  prompt : String
  sessionId : Option String := none
  groupFolder : String
  channelId : String
  isMain : Bool
  isScheduledTask : Bool := false
  images : List String := []

/-- `input.sessionId || generateSessionId()` (JS truthiness: an absent or
empty id yields the generated one). -/
def resolveSessionId (inputSessionId : Option String) (generatedId : String) : String :=
  match inputSessionId with
  | some s => if s = "" then generatedId else s
  | none => generatedId

/-- `generateSessionId`, parametrized by the `Date.now()` and random
strings it concatenates. -/
def generateSessionId (now rand : String) : String :=
  now ++ "-" ++ rand

/-- The `while (turns < MAX_TURNS)` loop of the agent `main`, recursing on
the remaining turn budget.  Returns the final history, the result (`none`
when the budget ran out on function calls), and the number of turns
consumed. -/
def agentLoop (respond : Nat → ModelResponse) (cleanText : String → String) :
    Nat → List GeminiContent → Nat → List GeminiContent × Option AgentResponse × Nat
  | 0, contents, turns => (contents, none, turns)
  | fuel + 1, contents, turns =>
    match respond turns with
    | .calls rawParts toolResults =>
      agentLoop respond cleanText fuel
        (contents ++ [⟨"model", rawParts⟩, ⟨"user", toolResults⟩])
        (turns + 1)
    | .text t =>
      let contents' := contents ++ [⟨"model", [t]⟩]
      let cleaned := cleanText t
      if cleaned = "" then
        (contents',
          some { outputType := .log, internalLog := some "Agent returned empty response" },
          turns + 1)
      else
        (contents', some { outputType := .message, userMessage := some cleaned }, turns + 1)

/-- Result of one whole agent run: the session save, the framed stdout
blocks, and the turn count. -/
structure AgentRunResult where
  savedSessionId : String
  savedContents : List GeminiContent
  framedBlocks : List ContainerOutput
  turns : Nat

/-- The scheduled-task banner prepended to the prompt. -/
def scheduledTaskBanner : String :=
  "[SCHEDULED TASK - The following message was sent automatically and is not coming directly from the user or group.]\n\n"

/-- The success path of the agent `main` (no thrown LLM error): load the
session when a truthy id was given (`loaded` models `loadSession`), append
the user turn, run the loop, validate the result, save the session and
emit one framed `ContainerOutput`. -/
def agentMain (input : ContainerInput) (loaded : Option (List GeminiContent))
    (generatedId : String) (respond : Nat → ModelResponse)
    (cleanText : String → String) : AgentRunResult :=
  let sessionId := resolveSessionId input.sessionId generatedId
  let contents0 : List GeminiContent :=
    match input.sessionId with
    | some s => if s = "" then [] else loaded.getD []
    | none => []
  let prompt :=
    if input.isScheduledTask then scheduledTaskBanner ++ input.prompt else input.prompt
  let contents1 := contents0 ++ [(⟨"user", prompt :: input.images⟩ : GeminiContent)]
  let r := agentLoop respond cleanText MAX_TURNS contents1 0
  let result0 : Option AgentResponse := r.2.1
  let result1 : Option AgentResponse :=
    match result0 with
    | some res =>
      if res.outputType = OutputType.message ∧ strTruthy res.userMessage = false then
        some { outputType := OutputType.log, internalLog := res.internalLog }
      else some res
    | none => none
  let out : ContainerOutput :=
    { status := .success
      result := some (result1.getD { outputType := .log })
      newSessionId := some sessionId }
  { savedSessionId := sessionId
    savedContents := r.1
    framedBlocks := [out]
    turns := r.2.2 }

/-- The `ContainerOutput` the agent emits on the loop's error path (the
`catch` in `main`): it carries the resolved session id. -/
def agentErrorOutput (sessionId : String) (errorMessage : String) : ContainerOutput :=
  { status := .error, result := none
    newSessionId := some sessionId, error := some errorMessage }

lemma agentLoop_turns_le (respond : Nat → ModelResponse) (cleanText : String → String) :
    ∀ (fuel : Nat) (contents : List GeminiContent) (turns : Nat),
      (agentLoop respond cleanText fuel contents turns).2.2 ≤ turns + fuel := by
  intro fuel
  induction fuel with
  | zero => intro contents turns; exact Nat.le_refl _
  | succ k ih =>
    intro contents turns
    rw [agentLoop]
    rcases respond turns with _ | t
    · exact Nat.le_trans (ih _ (turns + 1)) (by omega)
    · simp only
      by_cases hc : cleanText t = ""
      · rw [if_pos hc]
        show turns + 1 ≤ turns + (k + 1)
        omega
      · rw [if_neg hc]
        show turns + 1 ≤ turns + (k + 1)
        omega

/-- C8: The agent loop executes at most `MAX_TURNS` (30) iterations for
any input and any sequence of model responses, and at loop end (final text
or budget exhausted alike) the run saves the history under the session id
(the given one, or the generated one when absent or empty) and emits
exactly one framed `ContainerOutput` block on stdout. -/
theorem C8_agent_loop_bounded (input : ContainerInput)
    (loaded : Option (List GeminiContent)) (generatedId : String)
    (respond : Nat → ModelResponse) (cleanText : String → String) :
    (agentMain input loaded generatedId respond cleanText).turns ≤ MAX_TURNS ∧
    (agentMain input loaded generatedId respond cleanText).framedBlocks.length = 1 ∧
    (agentMain input loaded generatedId respond cleanText).savedSessionId
      = resolveSessionId input.sessionId generatedId ∧
    (input.sessionId = none →
      (agentMain input loaded generatedId respond cleanText).savedSessionId = generatedId) := by
  refine ⟨?_, rfl, rfl, ?_⟩
  · have h := agentLoop_turns_le respond cleanText MAX_TURNS
      ((match input.sessionId with
        | some s => if s = "" then [] else loaded.getD []
        | none => []) ++ [(⟨"user",
          (if input.isScheduledTask then scheduledTaskBanner ++ input.prompt
            else input.prompt) :: input.images⟩ : GeminiContent)]) 0
    simpa using h
  · intro hnone
    show resolveSessionId input.sessionId generatedId = generatedId
    rw [hnone]
    rfl

/-- Witness for C8 at a concrete input and model that always calls tools
(the loop hits the turn budget). -/
theorem C8_agent_loop_bounded_witness :
    (agentMain { prompt := "hi", groupFolder := "g1", channelId := "C1", isMain := false }
      none "gen-1" (fun _ => ModelResponse.calls [] []) (fun t => t)).turns ≤ MAX_TURNS ∧
    (agentMain { prompt := "hi", groupFolder := "g1", channelId := "C1", isMain := false }
      none "gen-1" (fun _ => ModelResponse.calls [] []) (fun t => t)).savedSessionId
      = "gen-1" :=
  ⟨(C8_agent_loop_bounded
      { prompt := "hi", groupFolder := "g1", channelId := "C1", isMain := false }
      none "gen-1" (fun _ => ModelResponse.calls [] []) (fun t => t)).1,
   (C8_agent_loop_bounded
      { prompt := "hi", groupFolder := "g1", channelId := "C1", isMain := false }
      none "gen-1" (fun _ => ModelResponse.calls [] []) (fun t => t)).2.2.2
     rfl⟩

/-- C10 (implicit): whenever the container output carries a (truthy)
`newSessionId`, `runAgent` persists it for the group's folder before
looking at `status` — so the stored id is updated even on `status ==
error`; the agent's loop error path always emits such a truthy
`newSessionId`; and on that error outcome `last_agent_timestamp` is left
unchanged by the processor. -/
theorem C10_session_persisted_on_error (sessions : String → Option String)
    (folder : String) (output : ContainerOutput) (sid : String)
    (hsid : output.newSessionId = some sid) (hne : ¬(sid = "")) :
    ((runAgent sessions folder (.ok output)).1 folder = some sid) ∧
    (∀ (inputSessionId : Option String) (now rand err : String),
      (agentErrorOutput (resolveSessionId inputSessionId (generateSessionId now rand))
          err).newSessionId
        = some (resolveSessionId inputSessionId (generateSessionId now rand)) ∧
      ¬(resolveSessionId inputSessionId (generateSessionId now rand) = "")) ∧
    (∀ (mainFolder : String) (trig : String → Bool) (assistantName : String)
      (group? : Option RegisteredGroup) (missed : List MsgRow) (st : HostState)
      (channelId : String),
      output.status = .error →
      (processGroupMessages mainFolder trig assistantName group? missed (.ok output)
        st channelId).state.lastAgentTimestamp = st.lastAgentTimestamp) := by
  refine ⟨?_, ?_, ?_⟩
  · rw [runAgent, hsid]
    simp only
    rw [if_neg hne]
    by_cases hst : output.status = .error
    · rw [if_pos hst]
      show Function.update sessions folder (some sid) folder = some sid
      rw [Function.update_same]
    · rw [if_neg hst]
      show Function.update sessions folder (some sid) folder = some sid
      rw [Function.update_same]
  · intro inputSessionId now rand err
    refine ⟨rfl, ?_⟩
    rw [resolveSessionId.eq_def]
    have hgen : ¬(generateSessionId now rand = "") := by
      intro h
      have h2 := congrArg String.length h
      rw [generateSessionId, String.length_append, String.length_append] at h2
      have h3 : ("-" : String).length = 1 := rfl
      have h4 : ("" : String).length = 0 := rfl
      rw [h3, h4] at h2
      omega
    rcases inputSessionId with _ | sid0
    · simpa using hgen
    · simp only
      by_cases hs : sid0 = ""
      · rw [if_pos hs]
        exact hgen
      · rw [if_neg hs]
        exact hs
  · intro mainFolder trig assistantName group? missed st channelId hst
    have herr : runnerErrored (.ok output) = true := by
      rw [runnerErrored, hst]
      rfl
    rcases group? with _ | group
    · rfl
    · simp only [processGroupMessages]
      by_cases hemp : missed.isEmpty = true
      · rw [if_pos hemp]
      · rw [if_neg hemp]
        by_cases htrg : ¬(group.requiresTrigger = some false)
            ∧ (group.folder == mainFolder) = false
            ∧ missed.any (fun m => m.mentions_bot == 1 || trig m.content) = false
        · rw [if_pos htrg]
        · rw [if_neg htrg]
          have h2 : (runAgent st.sessions group.folder (.ok output)).2 = none :=
            (runAgent_snd_none_iff _ _ _).mpr herr
          rw [h2]

/-- Witness for C10 at a concrete error output carrying a session id. -/
theorem C10_session_persisted_on_error_witness :
    ((runAgent (fun _ => none) "g1"
      (.ok (⟨.error, none, some "s1", some "boom"⟩ : ContainerOutput))).1 "g1"
      = some "s1") :=
  (C10_session_persisted_on_error (fun _ => none) "g1"
    ⟨.error, none, some "s1", some "boom"⟩ "s1" rfl (by decide)).1

/-! ## IPC watcher (`src/index.ts`)

`startIpcWatcher` and `processTaskIpc`.  The database is the parameter
`IpcEnv` (registration lookup and `getTaskById`); cron/date/interval
validation (`CronExpressionParser.parse`, `new Date`, `parseInt`) is the
parameter `computeNextRun` whose `Except.error` models the `break` on an
invalid schedule and whose `Except.ok nr` is the computed `next_run`
(`none` for a schedule type outside cron/interval/once, where the code
leaves `nextRun = null`).  Writes become an explicit `TaskEffect`. -/

/-- A `tasks` row. -/
structure Task where
  id : String
  group_folder : String
  channel_id : String
  prompt : String
  schedule_type : String
  schedule_value : String
  context_mode : String
  status : String
  next_run : Option String
  created_at : String
deriving Repr, DecidableEq

/-- Parsed payload of a `tasks/` IPC file. -/
structure TaskIpcData where
  type : String
  taskId : Option String := none
  prompt : Option String := none
  schedule_type : Option String := none
  schedule_value : Option String := none
  context_mode : Option String := none
  targetChannelId : Option String := none
  channelId : Option String := none
  name : Option String := none
  folder : Option String := none
  trigger : Option String := none
deriving Repr, DecidableEq

/-- Parsed payload of a `messages/` IPC file. -/
structure MessageIpcData where
  type : String
  channelId : Option String := none
  text : Option String := none
deriving Repr, DecidableEq

/-- Store lookups the watcher performs. -/
structure IpcEnv where
  registeredGroups : String → Option RegisteredGroup
  getTaskById : String → Option Task

/-- The store write one `processTaskIpc` call performs. -/
inductive TaskEffect
  | none
  | created (t : Task)
  | statusSet (taskId : String) (status : String)
  | deleted (taskId : String)
  | registered (channelId : String) (g : RegisteredGroup)
  | refreshed
deriving Repr, DecidableEq

/-- `processTaskIpc` from `src/index.ts`: dispatch on `data.type` with the
directory-derived `sourceGroup`/`isMain` identity. -/
def processTaskIpc (env : IpcEnv)
    (computeNextRun : String → String → Except Unit (Option String))
    (newTaskId nowIso : String) (data : TaskIpcData) (sourceGroup : String)
    (isMain : Bool) : TaskEffect :=
  if data.type = "schedule_task" then
    if strTruthy data.prompt = true ∧ strTruthy data.schedule_type = true
        ∧ strTruthy data.schedule_value = true ∧ strTruthy data.targetChannelId = true then
      match env.registeredGroups (data.targetChannelId.getD "") with
      | Option.none => TaskEffect.none
      | some targetGroupEntry =>
        if isMain = false ∧ ¬(targetGroupEntry.folder = sourceGroup) then TaskEffect.none
        else
          match computeNextRun (data.schedule_type.getD "") (data.schedule_value.getD "") with
          | .error _ => TaskEffect.none
          | .ok nextRun =>
            TaskEffect.created
              { id := newTaskId
                group_folder := targetGroupEntry.folder
                channel_id := data.targetChannelId.getD ""
                prompt := data.prompt.getD ""
                schedule_type := data.schedule_type.getD ""
                schedule_value := data.schedule_value.getD ""
                context_mode :=
                  if data.context_mode = some "group" ∨ data.context_mode = some "isolated"
                  then data.context_mode.getD "isolated" else "isolated"
                status := "active"
                next_run := nextRun
                created_at := nowIso }
    else TaskEffect.none
  else if data.type = "pause_task" then
    if strTruthy data.taskId = true then
      match env.getTaskById (data.taskId.getD "") with
      | some task =>
        if isMain = true ∨ task.group_folder = sourceGroup then
          TaskEffect.statusSet (data.taskId.getD "") "paused"
        else TaskEffect.none
      | Option.none => TaskEffect.none
    else TaskEffect.none
  else if data.type = "resume_task" then
    if strTruthy data.taskId = true then
      match env.getTaskById (data.taskId.getD "") with
      | some task =>
        if isMain = true ∨ task.group_folder = sourceGroup then
          TaskEffect.statusSet (data.taskId.getD "") "active"
        else TaskEffect.none
      | Option.none => TaskEffect.none
    else TaskEffect.none
  else if data.type = "cancel_task" then
    if strTruthy data.taskId = true then
      match env.getTaskById (data.taskId.getD "") with
      | some task =>
        if isMain = true ∨ task.group_folder = sourceGroup then
          TaskEffect.deleted (data.taskId.getD "")
        else TaskEffect.none
      | Option.none => TaskEffect.none
    else TaskEffect.none
  else if data.type = "refresh_groups" then
    if isMain = true then TaskEffect.refreshed else TaskEffect.none
  else if data.type = "register_channel" then
    if isMain = false then TaskEffect.none
    else if strTruthy data.channelId = true ∧ strTruthy data.name = true
        ∧ strTruthy data.folder = true ∧ strTruthy data.trigger = true then
      TaskEffect.registered (data.channelId.getD "")
        { name := data.name.getD "", folder := data.folder.getD ""
          trigger := data.trigger.getD "", requiresTrigger := Option.none }
    else TaskEffect.none
  else TaskEffect.none

/-- The watcher's handling of one parsed `messages/` IPC file: `some
(channelId, text)` when the message is delivered, `none` when it is
filtered out or blocked by authorization. -/
def processMessageIpc (registeredGroups : String → Option RegisteredGroup)
    (assistantName : String) (data : MessageIpcData) (sourceGroup : String)
    (isMain : Bool) : Option (String × String) :=
  if data.type = "message" ∧ strTruthy data.channelId = true ∧ strTruthy data.text = true then
    let authorized : Bool :=
      isMain ||
        (match registeredGroups (data.channelId.getD "") with
         | some targetGroup => targetGroup.folder == sourceGroup
         | Option.none => false)
    if authorized = true then
      some (data.channelId.getD "", assistantName ++ ": " ++ data.text.getD "")
    else none
  else none

/-- What the watcher does with the file itself. -/
inductive FileDisposition
  | unlinked
  | movedToErrors (name : String)
deriving Repr, DecidableEq

/-- One iteration of the watcher's `tasks/` file loop: an unparseable file
throws, is caught and renamed into `ipc/errors/{sourceGroup}-{file}`; a
parseable file is handed to `processTaskIpc` (authorized or not) and then
unlinked. -/
def taskFileOutcome (env : IpcEnv)
    (computeNextRun : String → String → Except Unit (Option String))
    (newTaskId nowIso : String) (parsed : Option TaskIpcData)
    (sourceGroup fileName : String) (isMain : Bool) : FileDisposition × TaskEffect :=
  match parsed with
  | Option.none => (.movedToErrors (sourceGroup ++ "-" ++ fileName), TaskEffect.none)
  | some data =>
    (.unlinked, processTaskIpc env computeNextRun newTaskId nowIso data sourceGroup isMain)

/-- One iteration of the watcher's `messages/` file loop. -/
def messageFileOutcome (registeredGroups : String → Option RegisteredGroup)
    (assistantName : String) (parsed : Option MessageIpcData)
    (sourceGroup fileName : String) (isMain : Bool) :
    FileDisposition × Option (String × String) :=
  match parsed with
  | Option.none => (.movedToErrors (sourceGroup ++ "-" ++ fileName), none)
  | some data =>
    (.unlinked, processMessageIpc registeredGroups assistantName data sourceGroup isMain)

/-- A concrete task owned by group `g1` (spec scenario 6). -/
def sampleTask : Task :=
  { id := "T1", group_folder := "g1", channel_id := "C1", prompt := "p"
    schedule_type := "once", schedule_value := "2030-01-01", context_mode := "isolated"
    status := "active", next_run := Option.none, created_at := "t0" }

/-- A concrete store containing only `sampleTask`. -/
def sampleEnv : IpcEnv :=
  { registeredGroups := fun _ => Option.none
    getTaskById := fun tid => if tid = "T1" then some sampleTask else Option.none }

lemma processTaskIpc_cancel_foreign (env : IpcEnv)
    (cnr : String → String → Except Unit (Option String)) (newTaskId nowIso : String)
    (data : TaskIpcData) (sourceGroup : String) (htype : data.type = "cancel_task")
    (task : Task) (hlook : env.getTaskById (data.taskId.getD "") = some task)
    (hfor : ¬(task.group_folder = sourceGroup)) :
    processTaskIpc env cnr newTaskId nowIso data sourceGroup false = TaskEffect.none := by
  rw [processTaskIpc, htype]
  rw [if_neg (by decide), if_neg (by decide), if_neg (by decide), if_pos rfl]
  by_cases htid : strTruthy data.taskId = true
  · rw [if_pos htid]
    simp only [hlook]
    rw [if_neg (by simp [hfor])]
  · rw [if_neg htid]

lemma processTaskIpc_pause_foreign (env : IpcEnv)
    (cnr : String → String → Except Unit (Option String)) (newTaskId nowIso : String)
    (data : TaskIpcData) (sourceGroup : String) (htype : data.type = "pause_task")
    (task : Task) (hlook : env.getTaskById (data.taskId.getD "") = some task)
    (hfor : ¬(task.group_folder = sourceGroup)) :
    processTaskIpc env cnr newTaskId nowIso data sourceGroup false = TaskEffect.none := by
  rw [processTaskIpc, htype]
  rw [if_neg (by decide), if_pos rfl]
  by_cases htid : strTruthy data.taskId = true
  · rw [if_pos htid]
    simp only [hlook]
    rw [if_neg (by simp [hfor])]
  · rw [if_neg htid]

lemma processTaskIpc_resume_foreign (env : IpcEnv)
    (cnr : String → String → Except Unit (Option String)) (newTaskId nowIso : String)
    (data : TaskIpcData) (sourceGroup : String) (htype : data.type = "resume_task")
    (task : Task) (hlook : env.getTaskById (data.taskId.getD "") = some task)
    (hfor : ¬(task.group_folder = sourceGroup)) :
    processTaskIpc env cnr newTaskId nowIso data sourceGroup false = TaskEffect.none := by
  rw [processTaskIpc, htype]
  rw [if_neg (by decide), if_neg (by decide), if_pos rfl]
  by_cases htid : strTruthy data.taskId = true
  · rw [if_pos htid]
    simp only [hlook]
    rw [if_neg (by simp [hfor])]
  · rw [if_neg htid]

lemma processTaskIpc_schedule_created (env : IpcEnv)
    (cnr : String → String → Except Unit (Option String)) (newTaskId nowIso : String)
    (data : TaskIpcData) (sourceGroup : String) (htype : data.type = "schedule_task")
    (t : Task)
    (h : processTaskIpc env cnr newTaskId nowIso data sourceGroup false
      = TaskEffect.created t) :
    t.group_folder = sourceGroup := by
  rw [processTaskIpc, htype, if_pos rfl] at h
  by_cases hval : strTruthy data.prompt = true ∧ strTruthy data.schedule_type = true
      ∧ strTruthy data.schedule_value = true ∧ strTruthy data.targetChannelId = true
  · rw [if_pos hval] at h
    rcases hreg : env.registeredGroups (data.targetChannelId.getD "") with _ | tg
    · simp only [hreg] at h
      cases h
    · simp only [hreg] at h
      by_cases hfol : tg.folder = sourceGroup
      · rw [if_neg (by simp [hfol])] at h
        rcases hnr : cnr (data.schedule_type.getD "") (data.schedule_value.getD "")
            with _ | nr
        · simp only [hnr] at h
          cases h
        · simp only [hnr] at h
          cases h
          exact hfol
      · rw [if_pos ⟨trivial, hfol⟩] at h
        cases h
  · rw [if_neg hval] at h
    cases h

lemma processTaskIpc_cancel_main (env : IpcEnv)
    (cnr : String → String → Except Unit (Option String)) (newTaskId nowIso : String)
    (data : TaskIpcData) (sourceGroup : String) (htype : data.type = "cancel_task")
    (htid : strTruthy data.taskId = true) (task : Task)
    (hlook : env.getTaskById (data.taskId.getD "") = some task) :
    processTaskIpc env cnr newTaskId nowIso data sourceGroup true
      = TaskEffect.deleted (data.taskId.getD "") := by
  rw [processTaskIpc, htype]
  rw [if_neg (by decide), if_neg (by decide), if_neg (by decide), if_pos rfl]
  rw [if_pos htid]
  simp only [hlook]
  rw [if_pos (Or.inl trivial)]

lemma processTaskIpc_pause_main (env : IpcEnv)
    (cnr : String → String → Except Unit (Option String)) (newTaskId nowIso : String)
    (data : TaskIpcData) (sourceGroup : String) (htype : data.type = "pause_task")
    (htid : strTruthy data.taskId = true) (task : Task)
    (hlook : env.getTaskById (data.taskId.getD "") = some task) :
    processTaskIpc env cnr newTaskId nowIso data sourceGroup true
      = TaskEffect.statusSet (data.taskId.getD "") "paused" := by
  rw [processTaskIpc, htype]
  rw [if_neg (by decide), if_pos rfl]
  rw [if_pos htid]
  simp only [hlook]
  rw [if_pos (Or.inl trivial)]

lemma processTaskIpc_resume_main (env : IpcEnv)
    (cnr : String → String → Except Unit (Option String)) (newTaskId nowIso : String)
    (data : TaskIpcData) (sourceGroup : String) (htype : data.type = "resume_task")
    (htid : strTruthy data.taskId = true) (task : Task)
    (hlook : env.getTaskById (data.taskId.getD "") = some task) :
    processTaskIpc env cnr newTaskId nowIso data sourceGroup true
      = TaskEffect.statusSet (data.taskId.getD "") "active" := by
  rw [processTaskIpc, htype]
  rw [if_neg (by decide), if_neg (by decide), if_pos rfl]
  rw [if_pos htid]
  simp only [hlook]
  rw [if_pos (Or.inl trivial)]

/-- C2: IPC authorization: a non-main source group can neither deliver a
chat message to a channel whose registered folder differs from the source
folder, nor create, pause, resume, or cancel a task whose `group_folder`
differs from the source folder (the foreign action has no store effect);
the main group may act on any channel or task. -/
theorem C2_ipc_authorization (env : IpcEnv)
    (cnr : String → String → Except Unit (Option String)) (newTaskId nowIso : String)
    (registeredGroups : String → Option RegisteredGroup) (assistantName : String)
    (mdata : MessageIpcData) (tdata : TaskIpcData) (sourceGroup : String) :
    (∀ ch text, processMessageIpc registeredGroups assistantName mdata sourceGroup false
        = some (ch, text) →
      ∃ g, registeredGroups ch = some g ∧ g.folder = sourceGroup) ∧
    (tdata.type = "schedule_task" →
      ∀ t, processTaskIpc env cnr newTaskId nowIso tdata sourceGroup false
        = TaskEffect.created t → t.group_folder = sourceGroup) ∧
    (tdata.type = "pause_task" →
      ∀ task, env.getTaskById (tdata.taskId.getD "") = some task →
      ¬(task.group_folder = sourceGroup) →
      processTaskIpc env cnr newTaskId nowIso tdata sourceGroup false = TaskEffect.none) ∧
    (tdata.type = "resume_task" →
      ∀ task, env.getTaskById (tdata.taskId.getD "") = some task →
      ¬(task.group_folder = sourceGroup) →
      processTaskIpc env cnr newTaskId nowIso tdata sourceGroup false = TaskEffect.none) ∧
    (tdata.type = "cancel_task" →
      ∀ task, env.getTaskById (tdata.taskId.getD "") = some task →
      ¬(task.group_folder = sourceGroup) →
      processTaskIpc env cnr newTaskId nowIso tdata sourceGroup false = TaskEffect.none) ∧
    (mdata.type = "message" → strTruthy mdata.channelId = true →
      strTruthy mdata.text = true →
      processMessageIpc registeredGroups assistantName mdata sourceGroup true
        = some (mdata.channelId.getD "", assistantName ++ ": " ++ mdata.text.getD "")) ∧
    (tdata.type = "pause_task" → strTruthy tdata.taskId = true →
      ∀ task, env.getTaskById (tdata.taskId.getD "") = some task →
      processTaskIpc env cnr newTaskId nowIso tdata sourceGroup true
        = TaskEffect.statusSet (tdata.taskId.getD "") "paused") ∧
    (tdata.type = "resume_task" → strTruthy tdata.taskId = true →
      ∀ task, env.getTaskById (tdata.taskId.getD "") = some task →
      processTaskIpc env cnr newTaskId nowIso tdata sourceGroup true
        = TaskEffect.statusSet (tdata.taskId.getD "") "active") ∧
    (tdata.type = "cancel_task" → strTruthy tdata.taskId = true →
      ∀ task, env.getTaskById (tdata.taskId.getD "") = some task →
      processTaskIpc env cnr newTaskId nowIso tdata sourceGroup true
        = TaskEffect.deleted (tdata.taskId.getD "")) := by
  refine ⟨?_, ?_, ?_, ?_, ?_, ?_, ?_, ?_, ?_⟩
  · intro ch text h
    simp only [processMessageIpc] at h
    by_cases h1 : mdata.type = "message" ∧ strTruthy mdata.channelId = true
        ∧ strTruthy mdata.text = true
    · rw [if_pos h1] at h
      rcases hreg : registeredGroups (mdata.channelId.getD "") with _ | g
      · simp only [hreg] at h
        simp at h
      · simp only [hreg, Bool.false_or] at h
        by_cases hf : (g.folder == sourceGroup) = true
        · rw [if_pos hf] at h
          have hch : mdata.channelId.getD "" = ch := congrArg Prod.fst (Option.some.inj h)
          refine ⟨g, ?_, by simpa using hf⟩
          rw [← hch]
          exact hreg
        · rw [if_neg hf] at h
          cases h
    · rw [if_neg h1] at h
      cases h
  · intro htype t h
    exact processTaskIpc_schedule_created env cnr newTaskId nowIso tdata sourceGroup htype t h
  · intro htype task hlook hfor
    exact processTaskIpc_pause_foreign env cnr newTaskId nowIso tdata sourceGroup htype
      task hlook hfor
  · intro htype task hlook hfor
    exact processTaskIpc_resume_foreign env cnr newTaskId nowIso tdata sourceGroup htype
      task hlook hfor
  · intro htype task hlook hfor
    exact processTaskIpc_cancel_foreign env cnr newTaskId nowIso tdata sourceGroup htype
      task hlook hfor
  · intro htype hch htext
    simp only [processMessageIpc]
    rw [if_pos ⟨htype, hch, htext⟩]
    simp only [Bool.true_or]
    exact if_pos trivial
  · intro htype htid task hlook
    exact processTaskIpc_pause_main env cnr newTaskId nowIso tdata sourceGroup htype
      htid task hlook
  · intro htype htid task hlook
    exact processTaskIpc_resume_main env cnr newTaskId nowIso tdata sourceGroup htype
      htid task hlook
  · intro htype htid task hlook
    exact processTaskIpc_cancel_main env cnr newTaskId nowIso tdata sourceGroup htype
      htid task hlook

/-- Witness for C2: the main group cancels a task owned by another
group's folder. -/
theorem C2_ipc_authorization_witness :
    processTaskIpc sampleEnv (fun _ _ => .ok Option.none) "nid" "now"
      { type := "cancel_task", taskId := some "T1" } "g2" true
      = TaskEffect.deleted "T1" :=
  (C2_ipc_authorization sampleEnv (fun _ _ => .ok Option.none) "nid" "now"
    (fun _ => Option.none) "Andy" { type := "message" }
    { type := "cancel_task", taskId := some "T1" } "g2").2.2.2.2.2.2.2.2
    rfl rfl sampleTask rfl

/-- C3 as stated is false on the code: the unauthorized cross-group
cancel of spec scenario 6 (`ipc/g2/tasks/abc.json` cancelling `T1` owned
by `g1`) leaves the task untouched, but the watcher deletes (unlinks) the
file instead of moving it to `ipc/errors/g2-abc.json`. -/
theorem C3_counterexample :
    (taskFileOutcome sampleEnv (fun _ _ => .ok Option.none) "nid" "now"
        (some { type := "cancel_task", taskId := some "T1" }) "g2" "abc.json" false).2
      = TaskEffect.none ∧
    ¬((taskFileOutcome sampleEnv (fun _ _ => .ok Option.none) "nid" "now"
        (some { type := "cancel_task", taskId := some "T1" }) "g2" "abc.json" false).1
      = FileDisposition.movedToErrors "g2-abc.json") := by
  constructor
  · rfl
  · intro h
    have h1 : (taskFileOutcome sampleEnv (fun _ _ => .ok Option.none) "nid" "now"
        (some { type := "cancel_task", taskId := some "T1" }) "g2" "abc.json" false).1
        = FileDisposition.unlinked := rfl
    rw [h1] at h
    cases h

/-- C3 (amended): an IPC file that fails to parse (or whose handler
throws) is quarantined without retry into
`ipc/errors/{sourceGroup}-{filename}` with no store effect; a parseable
file — including one carrying an unauthorized cross-group action — is
deleted (unlinked) after processing rather than quarantined, with the
targeted state unchanged in the unauthorized case; either way the file
leaves the drop directory and is never retried. -/
theorem C3_poison_quarantine_amended (env : IpcEnv)
    (cnr : String → String → Except Unit (Option String)) (newTaskId nowIso : String)
    (parsed : Option TaskIpcData) (mparsed : Option MessageIpcData)
    (registeredGroups : String → Option RegisteredGroup) (assistantName : String)
    (sourceGroup fileName : String) (isMain : Bool) :
    (parsed = Option.none →
      taskFileOutcome env cnr newTaskId nowIso parsed sourceGroup fileName isMain
        = (.movedToErrors (sourceGroup ++ "-" ++ fileName), TaskEffect.none)) ∧
    (mparsed = Option.none →
      messageFileOutcome registeredGroups assistantName mparsed sourceGroup fileName isMain
        = (.movedToErrors (sourceGroup ++ "-" ++ fileName), none)) ∧
    (∀ data, parsed = some data →
      (taskFileOutcome env cnr newTaskId nowIso parsed sourceGroup fileName isMain).1
        = FileDisposition.unlinked) ∧
    (∀ data, mparsed = some data →
      (messageFileOutcome registeredGroups assistantName mparsed sourceGroup fileName
        isMain).1 = FileDisposition.unlinked) ∧
    (∀ data task, parsed = some data → data.type = "cancel_task" →
      env.getTaskById (data.taskId.getD "") = some task →
      ¬(task.group_folder = sourceGroup) →
      (taskFileOutcome env cnr newTaskId nowIso parsed sourceGroup fileName false).2
        = TaskEffect.none) := by
  refine ⟨?_, ?_, ?_, ?_, ?_⟩
  · intro h
    rw [h]
    rfl
  · intro h
    rw [h]
    rfl
  · intro data h
    rw [h]
    rfl
  · intro data h
    rw [h]
    rfl
  · intro data task h htype hlook hfor
    rw [h]
    show (processTaskIpc env cnr newTaskId nowIso data sourceGroup false) = TaskEffect.none
    exact processTaskIpc_cancel_foreign env cnr newTaskId nowIso data sourceGroup htype
      task hlook hfor

/-- Witness for the amended C3: an unparseable task file from `g2` is
quarantined as `g2-bad.json` with no store effect. -/
theorem C3_poison_quarantine_amended_witness :
    taskFileOutcome sampleEnv (fun _ _ => .ok Option.none) "nid" "now"
      Option.none "g2" "bad.json" false
      = (FileDisposition.movedToErrors ("g2" ++ "-" ++ "bad.json"), TaskEffect.none) :=
  (C3_poison_quarantine_amended sampleEnv (fun _ _ => .ok Option.none) "nid" "now"
    Option.none Option.none (fun _ => Option.none) "Andy" "g2" "bad.json" false).1 rfl

/-- Witness for C5: a non-main channel with an untriggered batch reports
success without running the agent. -/
theorem C5_trigger_gating_witness :
    (processGroupMessages "main" (fun _ => false) "Andy"
      (some { name := "g", folder := "g1", trigger := "nano", requiresTrigger := some true })
      [{ sender_name := "u1", content := "hello", timestamp := "1", mentions_bot := 0 }]
      (.ok { status := .success, result := some { outputType := .log } })
      { lastAgentTimestamp := fun _ => none, sessions := fun _ => none } "C1").ranAgent = false :=
  ((C5_trigger_gating "main" (fun _ => false) "Andy"
    { name := "g", folder := "g1", trigger := "nano", requiresTrigger := some true }
    [{ sender_name := "u1", content := "hello", timestamp := "1", mentions_bot := 0 }]
    (.ok { status := .success, result := some { outputType := .log } })
    { lastAgentTimestamp := fun _ => none, sessions := fun _ => none } "C1").1
    (by decide) (by decide) rfl).2.1

end Nanoclaw
